import Mathlib

/-!
# OpenCBM parallel-port driver (FreeBSD port): bus engine

A shallow embedding of the bus-state and handshake engine of `src/opencbm.c`:
the line macros (`GET`, `SET`, `RELEASE`, `SET_RELEASE`, `set_data_forward`,
`set_data_reverse`, `disable_irq`), `check_if_bus_free`, `wait_for_free_bus`,
`do_reset`, the bus part of `cbm_attach`, the two handshake primitives, the
burst byte primitives and the three track operations.

Modelling conventions.

* The softc (`struct cbm_data`), the static `oldvalue` of `cbm_handshaked_read`
  and the parallel port live in one record, `State`.
* The partner on the bus is an arbitrary pair of streams: `str` gives the
  successive readings of the status register (`ppb_rstr`), `dtr_in` those of the
  data register (`ppb_rdtr`).  Both registers are `u_char`, so a reading is taken
  modulo 256.  `str_pos` and `dtr_pos` count the readings made so far.
* The control register is a latch holding the last value written to it
  (`ppb_wctr` takes a `char`, so the value is kept modulo 256); `ppb_rctr`
  returns the latch.
* Every register access, delay, log line and interrupt-mask operation is
  appended to `trace`, together with the interrupt-enable flag under which it
  happened.
* `unsigned char` fields are natural numbers reduced modulo 256 when written;
  `int` values whose sign matters are integers.
* Loops with a bound in the source (`to++ > TO_HANDSHAKED_READ`, the debounce
  counter, the `for` loops, the 999 arbitration attempts) are total functions.
  The two unbounded rendezvous loops of the burst byte primitives take a fuel
  argument and yield `none` when it runs out.
-/

namespace OpenCBM

/-! ## Constants -/

def ATN_OUT : Nat := 0x01
def CLK_OUT : Nat := 0x02
def DATA_OUT : Nat := 0x04
def RESET : Nat := 0x08
def ATN_IN : Nat := 0x10
def CLK_IN : Nat := 0x20
def DATA_IN : Nat := 0x40

def TO_HANDSHAKED_READ : Nat := 3300000
def TO_HANDSHAKED_WRITE : Nat := 3300000

/-! ## State and trace -/

/-- The lines written by `device_printf`. -/
inductive Msg where
  | using_cable
  | bus_is_free
  | bus_timeout
  | resetting
  | waiting_for_bus
  | debounce_timeout
  deriving DecidableEq, Repr

/-- Observable actions of the driver. -/
inductive Event where
  | status_read (v : Nat)
  | data_read (v : Nat)
  | data_write (v : Nat)
  | ctrl_read (v : Nat)
  | ctrl_write (v : Nat)
  | delay (us : Nat)
  | printf (m : Msg)
  | intr_disable
  | intr_restore (saved : Bool)
  deriving DecidableEq, Repr

/-- The softc, the static of `cbm_handshaked_read`, and the parallel port with
its environment. -/
structure State where
  sc_cable : Int
  sc_reset : Int
  sc_hold_clk : Int
  sc_out_bits : Nat
  sc_out_eor : Nat
  sc_busy : Int
  sc_data_reverse : Int
  oldvalue : Int
  str : Nat → Nat
  str_pos : Nat
  dtr_in : Nat → Nat
  dtr_pos : Nat
  ctr : Nat
  dtr : Nat
  intr : Bool
  trace : List (Bool × Event)

/-- Append an action to the trace, tagged with the current interrupt flag. -/
def emit (e : Event) (s : State) : State :=
  { s with trace := s.trace ++ [(s.intr, e)] }

/-! ## Raw register access (`ppb_*`), delays, interrupt mask -/

/-- `POLL()`, that is `ppb_rstr(ppbus)`. -/
def POLL (s : State) : Nat × State :=
  let v := s.str s.str_pos % 256
  (v, emit (Event.status_read v) { s with str_pos := s.str_pos + 1 })

/-- `XP_READ()`, that is `ppb_rdtr(ppbus)`. -/
def XP_READ (s : State) : Nat × State :=
  let v := s.dtr_in s.dtr_pos % 256
  (v, emit (Event.data_read v) { s with dtr_pos := s.dtr_pos + 1 })

/-- `XP_WRITE(c)`, that is `ppb_wdtr(ppbus, c)`. -/
def XP_WRITE (c : Nat) (s : State) : State :=
  emit (Event.data_write (c % 256)) { s with dtr := c % 256 }

/-- `CTRL_READ()`, that is `ppb_rctr(ppbus)`. -/
def CTRL_READ (s : State) : Nat × State :=
  (s.ctr, emit (Event.ctrl_read s.ctr) s)

/-- `CTRL_WRITE(c)`, that is `ppb_wctr(ppbus, c)`. -/
def CTRL_WRITE (c : Nat) (s : State) : State :=
  emit (Event.ctrl_write (c % 256)) { s with ctr := c % 256 }

/-- `DELAY(us)`, `timeout_us(us)` and `pause`: time passes, nothing else. -/
def DELAY (us : Nat) (s : State) : State :=
  emit (Event.delay us) s

/-- `device_printf`. -/
def device_printf (m : Msg) (s : State) : State :=
  emit (Event.printf m) s

/-- `intr_disable()`: returns the saved interrupt state and masks interrupts. -/
def intr_disable (s : State) : Bool × State :=
  (s.intr, { emit Event.intr_disable s with intr := false })

/-- `intr_restore(saved)`. -/
def intr_restore (saved : Bool) (s : State) : State :=
  { emit (Event.intr_restore saved) s with intr := saved }

/-! ## Line macros -/

/-- The C operator `~` on an `int` operand, as a 32-bit pattern. -/
def cnot (x : Nat) : Nat := 0xFFFFFFFF ^^^ x

/-- `GET(line)`: `((POLL() & line) == 0 ? 1 : 0)`. -/
def GET (line : Nat) (s : State) : Nat × State :=
  let r := POLL s
  (if r.1 &&& line = 0 then 1 else 0, r.2)

/-- `SET(line)`: `CTRL_WRITE(sc_out_eor ^ (sc_out_bits |= line))`. -/
def SET (line : Nat) (s : State) : State :=
  let bits := (s.sc_out_bits ||| line) % 256
  CTRL_WRITE (s.sc_out_eor ^^^ bits) { s with sc_out_bits := bits }

/-- `RELEASE(line)`: `CTRL_WRITE(sc_out_eor ^ (sc_out_bits &= ~(line)))`. -/
def RELEASE (line : Nat) (s : State) : State :=
  let bits := (s.sc_out_bits &&& cnot line) % 256
  CTRL_WRITE (s.sc_out_eor ^^^ bits) { s with sc_out_bits := bits }

/-- `SET_RELEASE(s,r)`:
`CTRL_WRITE(sc_out_eor ^ (sc_out_bits = (sc_out_bits | (s)) & ~(r)))`. -/
def SET_RELEASE (st rl : Nat) (s : State) : State :=
  let bits := ((s.sc_out_bits ||| st) &&& cnot rl) % 256
  CTRL_WRITE (s.sc_out_eor ^^^ bits) { s with sc_out_bits := bits }

/-- `set_data_forward()`: `CTRL_WRITE(CTRL_READ() & 0xdf); sc_data_reverse = 0`. -/
def set_data_forward (s : State) : State :=
  let r := CTRL_READ s
  { CTRL_WRITE (r.1 &&& 0xdf) r.2 with sc_data_reverse := 0 }

/-- `set_data_reverse()`: `CTRL_WRITE(CTRL_READ() | 0x20); sc_data_reverse = 1`. -/
def set_data_reverse (s : State) : State :=
  let r := CTRL_READ s
  { CTRL_WRITE (r.1 ||| 0x20) r.2 with sc_data_reverse := 1 }

/-- `disable_irq()`: `CTRL_WRITE(CTRL_READ() & 0xef)`. -/
def disable_irq (s : State) : State :=
  let r := CTRL_READ s
  CTRL_WRITE (r.1 &&& 0xef) r.2

/-! ## Bus arbitration and reset -/

/-- `check_if_bus_free` (source lines 130-148). -/
def check_if_bus_free (s : State) : Int × State :=
  let s := RELEASE (ATN_OUT ||| CLK_OUT ||| DATA_OUT ||| RESET) s
  let s := DELAY 100 s
  let s := SET ATN_OUT s
  let s := DELAY 100 s
  let g := GET DATA_IN s
  if g.1 = 0 then
    (0, RELEASE (ATN_OUT ||| CLK_OUT ||| DATA_OUT ||| RESET) g.2)
  else
    let s := RELEASE ATN_OUT g.2
    let s := DELAY 100 s
    let g2 := GET DATA_IN s
    let ret : Int := if g2.1 = 0 then 1 else 0
    (ret, RELEASE (ATN_OUT ||| CLK_OUT ||| DATA_OUT ||| RESET) g2.2)

/-- The `while (1)` loop of `wait_for_free_bus`, entered with counter `i`.  The
source increments `i` up to 1000 and leaves; the last branch closes the
recursion for counters past 1000 and is not reached from the entry value 1. -/
def wait_for_free_bus_loop (i : Nat) (s : State) : State :=
  let c := check_if_bus_free s
  if c.1 ≠ 0 then device_printf Msg.bus_is_free c.2
  else if i + 1 = 1000 then device_printf Msg.bus_timeout c.2
  else if h : i + 1 < 1000 then wait_for_free_bus_loop (i + 1) (DELAY 1000 c.2)
  else c.2
termination_by 1000 - i

/-- `wait_for_free_bus` (source lines 150-168). -/
def wait_for_free_bus (s : State) : State :=
  wait_for_free_bus_loop 1 s

/-- `do_reset` (source lines 170-181). -/
def do_reset (s : State) : State :=
  let s := device_printf Msg.resetting s
  let s := RELEASE (DATA_OUT ||| ATN_OUT ||| CLK_OUT) s
  let s := set_data_forward s
  let s := disable_irq s
  let s := SET RESET s
  let s := DELAY 100000 s
  let s := RELEASE RESET s
  let s := device_printf Msg.waiting_for_bus s
  wait_for_free_bus s

/-- The bus part of `cbm_attach` (source lines 331-359), entered once the
parallel port is owned, with the tunables already in `sc_cable` and `sc_reset`. -/
def cbm_attach_bus (s : State) : State :=
  let s :=
    if s.sc_cable < 0 then
      let a := GET ATN_IN s
      let c := CTRL_READ a.2
      let out : Nat := if c.1 &&& ATN_OUT ≠ 0 then 1 else 0
      { c.2 with sc_cable := if a.1 ≠ out then 1 else 0 }
    else s
  let s := { s with sc_out_eor := if s.sc_cable ≠ 0 then 0xcb else 0xc4 }
  let s := device_printf Msg.using_cable s
  let c := CTRL_READ s
  let s := { c.2 with sc_out_bits :=
    ((c.1 ^^^ c.2.sc_out_eor) &&& (DATA_OUT ||| CLK_OUT ||| ATN_OUT ||| RESET)) % 256 }
  let s :=
    if (s.sc_reset < 0 ∧ s.sc_out_bits &&& RESET ≠ 0) ∨ s.sc_reset > 0 then do_reset s
    else s
  let s := { s with sc_busy := 0 }
  let s := RELEASE (DATA_OUT ||| ATN_OUT ||| CLK_OUT) s
  let s := set_data_forward s
  let s := disable_irq s
  DELAY 50000 s

/-! ## Handshake protocol -/

/-- The bounded spin of both handshake primitives, entered with counter `to_`
(the local `to` of the source):
`while (GET(DATA_IN)) if (to++ > bound) return ...;` when `busy = 1` (the
`!toggle` branch) and `while (!GET(DATA_IN)) if (to++ > bound) return ...;`
when `busy = 0`.  The first component is true when the function returned from
inside the loop. -/
def handshake_wait (bound busy : Nat) (to_ : Nat) (s : State) : Bool × State :=
  let g := GET DATA_IN s
  if g.1 = busy then
    if h : to_ > bound then (true, g.2)
    else handshake_wait bound busy (to_ + 1) g.2
  else (false, g.2)
termination_by bound + 1 - to_

/-- The `do ... while` debounce loop of `cbm_handshaked_read` (source lines
553-565), entered with the given values of the four locals. -/
def debounce (timeoutcount : Nat) (returnvalue returnvalue2 returnvalue3 : Int)
    (s : State) : Int × State :=
  let timeoutcount := timeoutcount + 1
  if timeoutcount ≥ 8 then
    (returnvalue, device_printf Msg.debounce_timeout s)
  else
    let returnvalue := returnvalue2
    let returnvalue2 := returnvalue3
    let r := XP_READ s
    let returnvalue3 : Int := r.1
    if returnvalue ≠ returnvalue2 ∨ returnvalue ≠ returnvalue3 then
      debounce timeoutcount returnvalue returnvalue2 returnvalue3 r.2
    else (returnvalue, r.2)
termination_by 8 - timeoutcount

/-- `cbm_handshaked_read` (source lines 524-570).  The `~returnvalue3` of the
source, on an `int`, is `-returnvalue3 - 1`. -/
def cbm_handshaked_read (s : State) (toggle : Int) : Int × State :=
  let s := RELEASE DATA_IN s
  let w := handshake_wait TO_HANDSHAKED_READ (if toggle = 0 then 1 else 0) 0 s
  if w.1 then (-1, w.2)
  else
    let r := XP_READ w.2
    let returnvalue3 : Int := r.1
    let returnvalue2 : Int := -returnvalue3 - 1
    let d := debounce 0 0 returnvalue2 returnvalue3 r.2
    (d.1, { d.2 with oldvalue := d.1 })

/-- `cbm_handshaked_write` (source lines 572-593). -/
def cbm_handshaked_write (s : State) (data : Nat) (toggle : Int) : Int × State :=
  let s := RELEASE CLK_IN s
  let w := handshake_wait TO_HANDSHAKED_WRITE (if toggle = 0 then 1 else 0) 0 s
  if w.1 then (1, w.2)
  else
    let s := if w.2.sc_data_reverse ≠ 0 then set_data_forward w.2 else w.2
    let s := XP_WRITE data s
    (1, s)

/-! ## Parallel burst protocol -/

/-- The unbounded rendezvous loops `while (GET(DATA_IN)) ;` (`busy = 1`) and
`while (!GET(DATA_IN)) ;` (`busy = 0`); `none` when the fuel runs out. -/
def spin_while (busy : Nat) : Nat → State → Option State
  | 0, _ => none
  | fuel + 1, s =>
    let g := GET DATA_IN s
    if g.1 = busy then spin_while busy fuel g.2 else some g.2

/-- `cbm_parallel_burst_read` (source lines 475-494). -/
def cbm_parallel_burst_read (fuel : Nat) (s : State) : Option (Nat × State) :=
  let s := RELEASE (DATA_OUT ||| CLK_OUT) s
  let s := SET ATN_OUT s
  let s := DELAY 20 s
  match spin_while 1 fuel s with
  | none => none
  | some s =>
    let s := if s.sc_data_reverse = 0 then set_data_reverse (XP_WRITE 0xff s) else s
    let r := XP_READ s
    let s := DELAY 5 r.2
    let s := RELEASE ATN_OUT s
    let s := DELAY 10 s
    match spin_while 0 fuel s with
    | none => none
    | some s => some (r.1, s)

/-- `cbm_parallel_burst_write` (source lines 496-519). -/
def cbm_parallel_burst_write (fuel : Nat) (s : State) (c : Nat) : Option (Int × State) :=
  let s := RELEASE (DATA_OUT ||| CLK_OUT) s
  let s := SET ATN_OUT s
  let s := DELAY 20 s
  match spin_while 1 fuel s with
  | none => none
  | some s =>
    let s := if s.sc_data_reverse ≠ 0 then set_data_forward s else s
    let s := XP_WRITE c s
    let s := DELAY 5 s
    let s := RELEASE ATN_OUT s
    let s := DELAY 20 s
    match spin_while 0 fuel s with
    | none => none
    | some s =>
      let s := if s.sc_data_reverse = 0 then set_data_reverse (XP_WRITE 0xff s) else s
      let r := XP_READ s
      some (0, r.2)

/-- A caller-owned byte buffer, indexed from its base address. -/
abbrev Buffer := Nat → Nat

/-- The assignment `buffer[i] = byte` with `byte` an `int` and the cell an
`unsigned char`. -/
def Buffer.store (b : Buffer) (i : Nat) (byte : Int) : Buffer :=
  fun j => if j = i then (byte % 256).toNat else b j

/-- How a track loop was left: by the `return 0` inside it, or by reaching
the code after it (loop condition false, or `break`). -/
inductive LoopExit where
  | returned
  | fell_through
  deriving DecidableEq, Repr

/-- The `for` loop of `cbm_parallel_burst_read_track` (source lines 416-423),
entered with index `i`. -/
def read_track_loop (saveintr : Bool) (i : Nat) (s : State) (buffer : Buffer) :
    LoopExit × State × Buffer :=
  if h : i < 0x2000 then
    let r := cbm_handshaked_read s ((i &&& 1 : Nat) : Int)
    if r.1 = -1 then (LoopExit.returned, intr_restore saveintr r.2, buffer)
    else read_track_loop saveintr (i + 1) r.2 (buffer.store i r.1)
  else (LoopExit.fell_through, s, buffer)
termination_by 0x2000 - i

/-- `cbm_parallel_burst_read_track` (source lines 408-428). -/
def cbm_parallel_burst_read_track (fuel : Nat) (s : State) (buffer : Buffer) :
    Option (Int × State × Buffer) :=
  let d := intr_disable s
  let l := read_track_loop d.1 0 d.2 buffer
  match l.1 with
  | LoopExit.returned => some (0, l.2.1, l.2.2)
  | LoopExit.fell_through =>
    match cbm_parallel_burst_read fuel l.2.1 with
    | none => none
    | some r => some (1, intr_restore d.1 r.2, l.2.2)

/-- The `for` loop of `cbm_parallel_burst_read_track_var` (source lines
438-447), entered with index `i`. -/
def read_track_var_loop (saveintr : Bool) (i : Nat) (s : State) (buffer : Buffer) :
    LoopExit × State × Buffer :=
  if h : i < 0x2000 then
    let r := cbm_handshaked_read s ((i &&& 1 : Nat) : Int)
    if r.1 = -1 then (LoopExit.returned, intr_restore saveintr r.2, buffer)
    else if r.1 = 0x55 then (LoopExit.fell_through, r.2, buffer.store i r.1)
    else read_track_var_loop saveintr (i + 1) r.2 (buffer.store i r.1)
  else (LoopExit.fell_through, s, buffer)
termination_by 0x2000 - i

/-- `cbm_parallel_burst_read_track_var` (source lines 430-452). -/
def cbm_parallel_burst_read_track_var (fuel : Nat) (s : State) (buffer : Buffer) :
    Option (Int × State × Buffer) :=
  let d := intr_disable s
  let l := read_track_var_loop d.1 0 d.2 buffer
  match l.1 with
  | LoopExit.returned => some (0, l.2.1, l.2.2)
  | LoopExit.fell_through =>
    match cbm_parallel_burst_read fuel l.2.1 with
    | none => none
    | some r => some (1, intr_restore d.1 r.2, l.2.2)

/-- The `for` loop of `cbm_parallel_burst_write_track` (source lines 462-468),
entered with index `i`; the last component is the value of `i` on exit. -/
def write_track_loop (saveintr : Bool) (buffer : Buffer) (length : Int) (i : Nat)
    (s : State) : LoopExit × State × Nat :=
  if h : (i : Int) < length then
    let r := cbm_handshaked_write s (buffer i) ((i &&& 1 : Nat) : Int)
    if r.1 ≠ 0 then (LoopExit.returned, intr_restore saveintr r.2, i)
    else write_track_loop saveintr buffer length (i + 1) r.2
  else (LoopExit.fell_through, s, i)
termination_by (length - i).toNat

/-- `cbm_parallel_burst_write_track` (source lines 454-473). -/
def cbm_parallel_burst_write_track (fuel : Nat) (s : State) (buffer : Buffer)
    (length : Int) : Option (Int × State) :=
  let d := intr_disable s
  let l := write_track_loop d.1 buffer length 0 d.2
  match l.1 with
  | LoopExit.returned => some (0, l.2.1)
  | LoopExit.fell_through =>
    let w := cbm_handshaked_write l.2.1 0 ((l.2.2 &&& 1 : Nat) : Int)
    match cbm_parallel_burst_read fuel w.2 with
    | none => none
    | some r => some (1, intr_restore d.1 r.2)

/-! ## Observations used in the statements -/

/-- The value `GET(DATA_IN)` yields at the `k`-th poll of the status register
made from state `s` on: 1 when the DATA input is asserted, 0 when it is not. -/
def data_get (s : State) (k : Nat) : Nat :=
  if s.str (s.str_pos + k) % 256 &&& DATA_IN = 0 then 1 else 0

/-- The `k`-th reading of the data register made from state `s` on. -/
def sample (s : State) (k : Nat) : Int :=
  ((s.dtr_in (s.dtr_pos + k) % 256 : Nat) : Int)

/-- The state after `n` successive `POLL()`s. -/
@[irreducible]
def polls : Nat → State → State
  | 0, s => s
  | n + 1, s => polls n (POLL s).2

/-- The state after `n` successive `XP_READ()`s. -/
@[irreducible]
def reads : Nat → State → State
  | 0, s => s
  | n + 1, s => reads n (XP_READ s).2

/-- Whether an action is a `device_printf`. -/
def Event.is_printf : Event → Bool
  | Event.printf _ => true
  | _ => false

/-- Whether an action is an access to a register of the parallel port. -/
def Event.is_access : Event → Bool
  | Event.status_read _ => true
  | Event.data_read _ => true
  | Event.data_write _ => true
  | Event.ctrl_read _ => true
  | Event.ctrl_write _ => true
  | _ => false

/-- Whether an action saves, masks or restores the interrupt state. -/
def Event.is_intr : Event → Bool
  | Event.intr_disable => true
  | Event.intr_restore _ => true
  | _ => false

/-- The number of log lines in the trace. -/
def logs (s : State) : Nat :=
  s.trace.countP (fun e => e.2.is_printf)

/-- The bytes written to the data register so far, oldest first. -/
def data_writes (s : State) : List Nat :=
  s.trace.filterMap (fun e => match e.2 with
    | Event.data_write v => some v
    | _ => none)

/-- State `t` is reached from `s` by actions that leave the interrupt flag, the
partner streams and the polarity mask alone: the trace of `t` extends that of
`s` by actions, none of them on the interrupt mask, all tagged with the flag of
`s`. -/
structure Frame (s t : State) : Prop where
  intr : t.intr = s.intr
  str : t.str = s.str
  dtr_in : t.dtr_in = s.dtr_in
  eor : t.sc_out_eor = s.sc_out_eor
  trace : ∃ evs, t.trace = s.trace ++ evs ∧
    ∀ e ∈ evs, e.1 = s.intr ∧ e.2.is_intr = false

/-- The sliding window of the debounce loop seen from its entry: the locals
`returnvalue2` and `returnvalue3`, then the readings still to come. -/
def window (rv2 rv3 : Int) (s : State) : Nat → Int
  | 0 => rv2
  | 1 => rv3
  | k + 2 => sample s k

/-- Three consecutive values of a sequence agree. -/
def stable3 (f : Nat → Int) (k : Nat) : Prop :=
  f k = f (k + 1) ∧ f k = f (k + 2)

instance (f : Nat → Int) (k : Nat) : Decidable (stable3 f k) := by
  unfold stable3; infer_instance

/-- The GET value that keeps the handshake spin going: DATA asserted (1) for
`toggle = 0`, DATA not asserted (0) otherwise. -/
def busy_level (toggle : Int) : Nat := if toggle = 0 then 1 else 0

/-- The state in which the `i`-th handshake read of a track read is made, when
the first one is made in state `s`: read `i` is called with toggle `i mod 2` in
the state left by read `i - 1`. -/
def hs_read_state (s : State) : Nat → State
  | 0 => s
  | i + 1 => (cbm_handshaked_read (hs_read_state s i) ((i % 2 : Nat) : Int)).2

/-- The value returned by the `i`-th handshake read of a track read whose
first read is made in state `s`. -/
def hs_read_byte (s : State) (i : Nat) : Int :=
  (cbm_handshaked_read (hs_read_state s i) ((i % 2 : Nat) : Int)).1

/-- The buffer after the bytes of the reads `i .. k-1` have been stored. -/
def filled (s : State) (b : Buffer) (i k : Nat) : Buffer :=
  fun j => if i ≤ j ∧ j < k then ((hs_read_byte s j) % 256).toNat else b j

/-- Tag a list of actions with the interrupt flag of `s`. -/
def tagged (s : State) (evs : List Event) : List (Bool × Event) :=
  evs.map (fun e => (s.intr, e))

/-! ## Concrete adapters and partners -/

/-- An attached, idle adapter on a passive cable (polarity mask 0xc4, all
outputs released, direction forward, control register 0xc4) facing a partner
given by its two streams. -/
def idle_state (str dtr_in : Nat → Nat) : State :=
  { sc_cable := 0, sc_reset := 0, sc_hold_clk := 1, sc_out_bits := 0, sc_out_eor := 0xc4,
    sc_busy := 0, sc_data_reverse := 0, oldvalue := -1, str := str, str_pos := 0,
    dtr_in := dtr_in, dtr_pos := 0, ctr := 0xc4, dtr := 0, intr := true, trace := [] }

/-- A partner that holds DATA asserted for ever (status bit 0x40 clear). -/
def st_stalled : State := idle_state (fun _ => 0) (fun _ => 0x41)

/-- A partner that shows DATA released at every poll and a steady byte 0x41. -/
def st_steady : State := idle_state (fun _ => 0x40) (fun _ => 0x41)

/-- A partner that shows DATA released at every poll and data lines that never
settle: the successive readings are 0, 1, 2, ... -/
def st_chatter : State := idle_state (fun _ => 0x40) (fun n => n)

/-- A partner that toggles DATA at every poll, starting released, and shows a
steady byte 0x41. -/
def st_toggling : State := idle_state (fun n => if n % 2 = 0 then 0x40 else 0) (fun _ => 0x41)

/-- A partner that never answers ATN: DATA is released at every poll. -/
def st_no_device : State := idle_state (fun _ => 0x40) (fun _ => 0)

/-- A device that answers ATN and then releases DATA: asserted at the first
poll, released afterwards. -/
def st_device : State := idle_state (fun n => if n = 0 then 0 else 0x40) (fun _ => 0)

/-- A partner that sends the sentinel 0x55, has DATA released at the first two
polls and asserted from then on. -/
def st_sentinel : State := idle_state (fun n => if n < 2 then 0x40 else 0) (fun _ => 0x55)

/-- A partner that sends the sentinel 0x55, has DATA released at the first poll
and holds it asserted for ever after. -/
def st_hang : State := idle_state (fun n => if n = 0 then 0x40 else 0) (fun _ => 0x55)

/-- State `t` is reached from `s` by a call that masks interrupts around its
whole body: its first action saves and disables the interrupt state, every
action of the body happens with interrupts disabled and none of them touches
the interrupt mask, its last action restores the saved state, and the interrupt
state of `t` is that of `s`. -/
def Masked (s t : State) : Prop :=
  t.intr = s.intr ∧
  ∃ body, t.trace =
      s.trace ++ (s.intr, Event.intr_disable) :: body ++ [(false, Event.intr_restore s.intr)] ∧
    ∀ e ∈ body, e.1 = false ∧ e.2.is_intr = false

/-- The adapter as `cbm_attach` finds it once the port is owned: tunables
`cbm.cable=0` (passive cable) and `cbm.reset=0` (no reset), a zeroed softc, the
control register reading 0xe4 (direction bit set), facing the toggling
partner. -/
def st_power_on : State :=
  { sc_cable := 0, sc_reset := 0, sc_hold_clk := 1, sc_out_bits := 0, sc_out_eor := 0,
    sc_busy := 0, sc_data_reverse := 0, oldvalue := -1,
    str := fun n => if n % 2 = 0 then 0x40 else 0, str_pos := 0,
    dtr_in := fun _ => 0x41, dtr_pos := 0, ctr := 0xe4, dtr := 0, intr := true, trace := [] }

/-! ## Lemmas on the primitives -/

theorem polls_zero (s : State) : polls 0 s = s := by
  rw [polls]

theorem polls_succ (n : Nat) (s : State) : polls (n + 1) s = polls n (POLL s).2 := by
  rw [polls]

theorem reads_zero (s : State) : reads 0 s = s := by
  rw [reads]

theorem reads_succ (n : Nat) (s : State) : reads (n + 1) s = reads n (XP_READ s).2 := by
  rw [reads]

theorem Frame.refl (s : State) : Frame s s :=
  ⟨rfl, rfl, rfl, rfl, [], by simp, by simp⟩

theorem Frame.trans {s t u : State} (h1 : Frame s t) (h2 : Frame t u) : Frame s u := by
  obtain ⟨e1, he1, hp1⟩ := h1.trace
  obtain ⟨e2, he2, hp2⟩ := h2.trace
  refine ⟨h2.intr.trans h1.intr, h2.str.trans h1.str, h2.dtr_in.trans h1.dtr_in,
    h2.eor.trans h1.eor, e1 ++ e2, by rw [he2, he1, List.append_assoc], ?_⟩
  intro e he
  rcases List.mem_append.mp he with h | h
  · exact hp1 e h
  · have := hp2 e h
    rw [h1.intr] at this
    exact this

theorem frame_emit (e : Event) (s : State) (he : e.is_intr = false) : Frame s (emit e s) :=
  ⟨rfl, rfl, rfl, rfl, [(s.intr, e)], rfl, by simp [he]⟩

theorem frame_POLL (s : State) : Frame s (POLL s).2 :=
  ⟨rfl, rfl, rfl, rfl, [(s.intr, Event.status_read (s.str s.str_pos % 256))], rfl,
    by simp [Event.is_intr]⟩

theorem frame_XP_READ (s : State) : Frame s (XP_READ s).2 :=
  ⟨rfl, rfl, rfl, rfl, [(s.intr, Event.data_read (s.dtr_in s.dtr_pos % 256))], rfl,
    by simp [Event.is_intr]⟩

theorem frame_XP_WRITE (c : Nat) (s : State) : Frame s (XP_WRITE c s) :=
  ⟨rfl, rfl, rfl, rfl, [(s.intr, Event.data_write (c % 256))], rfl, by simp [Event.is_intr]⟩

theorem frame_CTRL_READ (s : State) : Frame s (CTRL_READ s).2 :=
  ⟨rfl, rfl, rfl, rfl, [(s.intr, Event.ctrl_read s.ctr)], rfl, by simp [Event.is_intr]⟩

theorem frame_CTRL_WRITE (c : Nat) (s : State) : Frame s (CTRL_WRITE c s) :=
  ⟨rfl, rfl, rfl, rfl, [(s.intr, Event.ctrl_write (c % 256))], rfl, by simp [Event.is_intr]⟩

theorem frame_DELAY (us : Nat) (s : State) : Frame s (DELAY us s) :=
  frame_emit _ s rfl

theorem frame_device_printf (m : Msg) (s : State) : Frame s (device_printf m s) :=
  frame_emit _ s rfl

theorem frame_GET (line : Nat) (s : State) : Frame s (GET line s).2 :=
  frame_POLL s

theorem frame_SET (line : Nat) (s : State) : Frame s (SET line s) :=
  ⟨rfl, rfl, rfl, rfl, _, rfl, by simp [Event.is_intr]⟩

theorem frame_RELEASE (line : Nat) (s : State) : Frame s (RELEASE line s) :=
  ⟨rfl, rfl, rfl, rfl, _, rfl, by simp [Event.is_intr]⟩

theorem frame_set_data_forward (s : State) : Frame s (set_data_forward s) :=
  ⟨rfl, rfl, rfl, rfl, [(s.intr, Event.ctrl_read s.ctr),
    (s.intr, Event.ctrl_write ((s.ctr &&& 0xdf) % 256))],
    by simp [set_data_forward, CTRL_READ, CTRL_WRITE, emit], by simp [Event.is_intr]⟩

theorem frame_set_data_reverse (s : State) : Frame s (set_data_reverse s) :=
  ⟨rfl, rfl, rfl, rfl, [(s.intr, Event.ctrl_read s.ctr),
    (s.intr, Event.ctrl_write ((s.ctr ||| 0x20) % 256))],
    by simp [set_data_reverse, CTRL_READ, CTRL_WRITE, emit], by simp [Event.is_intr]⟩

theorem frame_oldvalue (s : State) (v : Int) : Frame s { s with oldvalue := v } :=
  ⟨rfl, rfl, rfl, rfl, [], by simp, by simp⟩

theorem frame_polls (n : Nat) : ∀ s : State, Frame s (polls n s) := by
  induction n with
  | zero => intro s; rw [polls_zero]; exact Frame.refl s
  | succ n ih => intro s; rw [polls_succ]; exact (frame_POLL s).trans (ih _)

theorem frame_reads (n : Nat) : ∀ s : State, Frame s (reads n s) := by
  induction n with
  | zero => intro s; rw [reads_zero]; exact Frame.refl s
  | succ n ih => intro s; rw [reads_succ]; exact (frame_XP_READ s).trans (ih _)

/-! ## The bounded handshake spin -/

theorem GET_DATA_IN_eq (s : State) : GET DATA_IN s = (data_get s 0, (POLL s).2) := by
  simp [GET, data_get, POLL]

theorem data_get_POLL (s : State) (k : Nat) : data_get (POLL s).2 k = data_get s (k + 1) := by
  simp [data_get, POLL, emit, Nat.add_assoc, Nat.add_comm 1 k]

theorem handshake_wait_ok (bound busy : Nat) (j : Nat) :
    ∀ (to_ : Nat) (s : State), (∀ k, k < j → data_get s k = busy) → data_get s j ≠ busy →
      to_ + j ≤ bound + 1 → handshake_wait bound busy to_ s = (false, polls (j + 1) s) := by
  induction j with
  | zero =>
    intro to_ s _ h0 _
    rw [handshake_wait, GET_DATA_IN_eq]
    simp [h0, polls_succ, polls_zero]
  | succ j ih =>
    intro to_ s hb hj hle
    rw [handshake_wait, GET_DATA_IN_eq]
    have h0 : data_get s 0 = busy := hb 0 (Nat.succ_pos j)
    have hto : ¬ to_ > bound := by omega
    simp only [h0, if_true, hto, dite_false]
    rw [ih (to_ + 1) (POLL s).2 ?_ ?_ (by omega)]
    · rw [polls_succ (j + 1)]
    · intro k hk
      rw [data_get_POLL]
      exact hb (k + 1) (by omega)
    · rw [data_get_POLL]
      exact hj

theorem handshake_wait_timeout (bound busy : Nat) (n : Nat) :
    ∀ (to_ : Nat) (s : State), to_ + n = bound + 1 →
      (∀ k, k ≤ n → data_get s k = busy) →
      handshake_wait bound busy to_ s = (true, polls (n + 1) s) := by
  induction n with
  | zero =>
    intro to_ s hto hb
    rw [handshake_wait, GET_DATA_IN_eq]
    have h0 : data_get s 0 = busy := hb 0 (Nat.le_refl 0)
    have hgt : to_ > bound := by omega
    simp [h0, hgt, polls_succ, polls_zero]
  | succ n ih =>
    intro to_ s hto hb
    rw [handshake_wait, GET_DATA_IN_eq]
    have h0 : data_get s 0 = busy := hb 0 (Nat.zero_le _)
    have hgt : ¬ to_ > bound := by omega
    simp only [h0, if_true, hgt, dite_false]
    rw [ih (to_ + 1) (POLL s).2 (by omega) ?_]
    · rw [polls_succ (n + 1)]
    · intro k hk
      rw [data_get_POLL]
      exact hb (k + 1) (by omega)

/-- Outcome of the spin entered with counter 0: either every one of the
`bound + 2` polls finds DATA at the busy level and the spin times out, or the
first poll `j` that does not, `j ≤ bound + 1`, ends it. -/
theorem handshake_wait_cases (bound busy : Nat) (s : State) :
    ((∀ k, k ≤ bound + 1 → data_get s k = busy) ∧
        handshake_wait bound busy 0 s = (true, polls (bound + 2) s)) ∨
    (∃ j, j ≤ bound + 1 ∧ (∀ k, k < j → data_get s k = busy) ∧ data_get s j ≠ busy ∧
        handshake_wait bound busy 0 s = (false, polls (j + 1) s)) := by
  by_cases h : ∀ k, k ≤ bound + 1 → data_get s k = busy
  · left
    exact ⟨h, handshake_wait_timeout bound busy (bound + 1) 0 s (by omega) h⟩
  · right
    have hex : ∃ k, k ≤ bound + 1 ∧ data_get s k ≠ busy := by
      by_contra hne
      apply h
      intro k hk
      by_contra hk2
      exact hne ⟨k, hk, hk2⟩
    refine ⟨Nat.find hex, (Nat.find_spec hex).1, ?_, (Nat.find_spec hex).2, ?_⟩
    · intro k hk
      by_contra hk2
      exact Nat.find_min hex hk ⟨by have := (Nat.find_spec hex).1; omega, hk2⟩
    · apply handshake_wait_ok bound busy _ 0 s _ (Nat.find_spec hex).2
      · have := (Nat.find_spec hex).1; omega
      · intro k hk
        by_contra hk2
        exact Nat.find_min hex hk ⟨by have := (Nat.find_spec hex).1; omega, hk2⟩

/-! ## The debounce loop -/

theorem XP_READ_fst (s : State) : ((XP_READ s).1 : Int) = sample s 0 := by
  simp [XP_READ, sample]

theorem sample_XP_READ (s : State) (k : Nat) : sample (XP_READ s).2 k = sample s (k + 1) := by
  simp [sample, XP_READ, emit, Nat.add_assoc, Nat.add_comm 1 k]

theorem window_shift (rv2 rv3 : Int) (s : State) (k : Nat) :
    window rv3 (sample s 0) (XP_READ s).2 k = window rv2 rv3 s (k + 1) := by
  match k with
  | 0 => rfl
  | 1 => rfl
  | k + 2 => simp [window, sample_XP_READ]

theorem stable3_shift (rv2 rv3 : Int) (s : State) (k : Nat) :
    stable3 (window rv3 (sample s 0) (XP_READ s).2) k ↔ stable3 (window rv2 rv3 s) (k + 1) := by
  unfold stable3
  rw [window_shift rv2 rv3 s k, window_shift rv2 rv3 s (k + 1), window_shift rv2 rv3 s (k + 2)]

theorem debounce_step (t : Nat) (rv rv2 rv3 : Int) (s : State) (ht : t + 1 < 8) :
    debounce t rv rv2 rv3 s =
      if stable3 (window rv2 rv3 s) 0 then (rv2, (XP_READ s).2)
      else debounce (t + 1) rv2 rv3 (sample s 0) (XP_READ s).2 := by
  rw [debounce]
  have h8 : ¬ t + 1 ≥ 8 := by omega
  simp only [h8, if_false, XP_READ_fst]
  by_cases h : stable3 (window rv2 rv3 s) 0
  · have h' := h
    simp only [stable3, window] at h'
    rw [if_pos h, if_neg]
    intro hne
    rcases hne with h1 | h2
    · exact h1 h'.1
    · exact h2 h'.2
  · have h' := h
    simp only [stable3, window, not_and_or] at h'
    rw [if_neg h, if_pos]
    rcases h' with h1 | h2
    · exact Or.inl h1
    · exact Or.inr h2

theorem debounce_stop (t : Nat) (rv rv2 rv3 : Int) (s : State) (ht : 8 ≤ t + 1) :
    debounce t rv rv2 rv3 s = (rv, device_printf Msg.debounce_timeout s) := by
  rw [debounce]
  simp [ht]

theorem debounce_stable (n : Nat) :
    ∀ (t : Nat) (rv rv2 rv3 : Int) (s : State), t + n + 1 < 8 →
      (∀ k, k < n → ¬ stable3 (window rv2 rv3 s) k) → stable3 (window rv2 rv3 s) n →
      debounce t rv rv2 rv3 s = (window rv2 rv3 s n, reads (n + 1) s) := by
  induction n with
  | zero =>
    intro t rv rv2 rv3 s ht _ hs
    rw [debounce_step t rv rv2 rv3 s (by omega), if_pos hs, reads_succ, reads_zero]
    rfl
  | succ n ih =>
    intro t rv rv2 rv3 s ht hu hs
    rw [debounce_step t rv rv2 rv3 s (by omega), if_neg (hu 0 (Nat.succ_pos n))]
    rw [ih (t + 1) rv2 rv3 (sample s 0) (XP_READ s).2 (by omega) ?_ ?_]
    · rw [window_shift rv2, reads_succ (n + 1)]
    · intro k hk
      rw [stable3_shift]
      exact hu (k + 1) (by omega)
    · rw [stable3_shift]
      exact hs

theorem debounce_unstable (n : Nat) :
    ∀ (t : Nat) (rv rv2 rv3 : Int) (s : State), t + n + 1 = 8 →
      (∀ k, k < n → ¬ stable3 (window rv2 rv3 s) k) →
      debounce t rv rv2 rv3 s =
        (if n = 0 then rv else window rv2 rv3 s (n - 1),
          device_printf Msg.debounce_timeout (reads n s)) := by
  induction n with
  | zero =>
    intro t rv rv2 rv3 s ht _
    rw [debounce_stop t rv rv2 rv3 s (by omega), reads_zero]
    rfl
  | succ n ih =>
    intro t rv rv2 rv3 s ht hu
    rw [debounce_step t rv rv2 rv3 s (by omega), if_neg (hu 0 (Nat.succ_pos n))]
    rw [ih (t + 1) rv2 rv3 (sample s 0) (XP_READ s).2 (by omega) ?_]
    · by_cases hn : n = 0
      · subst hn
        rw [reads_succ]
        rfl
      · simp only [hn, if_false, Nat.succ_ne_zero, Nat.add_sub_cancel]
        rw [window_shift rv2, Nat.sub_add_cancel (Nat.pos_of_ne_zero hn), reads_succ]
    · intro k hk
      rw [stable3_shift]
      exact hu (k + 1) (by omega)

/-! ## Closed forms of repeated polls and reads -/

theorem polls_eq (n : Nat) : ∀ s : State, polls n s =
    { s with
      str_pos := s.str_pos + n
      trace := s.trace ++ (List.range n).map
        (fun k => (s.intr, Event.status_read (s.str (s.str_pos + k) % 256))) } := by
  induction n with
  | zero => intro s; simp [polls_zero]
  | succ n ih =>
    intro s
    rw [polls_succ, ih]
    simp [POLL, emit, List.range_succ_eq_map, Nat.add_assoc, Nat.add_comm 1, Function.comp_def]

theorem reads_eq (n : Nat) : ∀ s : State, reads n s =
    { s with
      dtr_pos := s.dtr_pos + n
      trace := s.trace ++ (List.range n).map
        (fun k => (s.intr, Event.data_read (s.dtr_in (s.dtr_pos + k) % 256))) } := by
  induction n with
  | zero => intro s; simp [reads_zero]
  | succ n ih =>
    intro s
    rw [reads_succ, ih]
    simp [XP_READ, emit, List.range_succ_eq_map, Nat.add_assoc, Nat.add_comm 1, Function.comp_def]

theorem data_get_congr {s t : State} (h1 : t.str = s.str) (h2 : t.str_pos = s.str_pos) (k : Nat) :
    data_get t k = data_get s k := by
  simp [data_get, h1, h2]

theorem sample_congr {s t : State} (h1 : t.dtr_in = s.dtr_in) (h2 : t.dtr_pos = s.dtr_pos) :
    sample t = sample s := by
  funext k
  simp [sample, h1, h2]

theorem data_get_RELEASE (line : Nat) (s : State) (k : Nat) :
    data_get (RELEASE line s) k = data_get s k :=
  data_get_congr rfl rfl k

theorem sample_polls_RELEASE (n line : Nat) (s : State) :
    sample (polls n (RELEASE line s)) = sample s := by
  apply sample_congr <;> rw [polls_eq] <;> rfl

/-! ## The handshake read, outcome by outcome -/

theorem window_init (w : State) (k : Nat) :
    window (-(sample w 0) - 1) (sample w 0) (XP_READ w).2 (k + 1) = sample w k := by
  match k with
  | 0 => rfl
  | k + 1 => simp [window, sample_XP_READ]

theorem stable3_init (w : State) (k : Nat) :
    stable3 (window (-(sample w 0) - 1) (sample w 0) (XP_READ w).2) (k + 1) ↔
      stable3 (sample w) k := by
  unfold stable3
  rw [window_init w k, window_init w (k + 1), window_init w (k + 2)]

theorem not_stable3_init (w : State) :
    ¬ stable3 (window (-(sample w 0) - 1) (sample w 0) (XP_READ w).2) 0 := by
  intro h
  have h1 := h.1
  simp only [window] at h1
  omega

/-- The handshake read when the spin is exhausted. -/
theorem handshaked_read_timeout (s : State) (toggle : Int)
    (hb : ∀ k, k ≤ TO_HANDSHAKED_READ + 1 → data_get s k = busy_level toggle) :
    cbm_handshaked_read s toggle =
      (-1, polls (TO_HANDSHAKED_READ + 2) (RELEASE DATA_IN s)) := by
  have hw := handshake_wait_timeout TO_HANDSHAKED_READ (busy_level toggle)
    (TO_HANDSHAKED_READ + 1) 0 (RELEASE DATA_IN s) (by omega)
    (fun k hk => by rw [data_get_RELEASE]; exact hb k hk)
  have e : TO_HANDSHAKED_READ + 1 + 1 = TO_HANDSHAKED_READ + 2 := rfl
  rw [e] at hw
  unfold cbm_handshaked_read
  simp only [busy_level] at hw
  dsimp only
  rw [hw]
  simp only [if_true]

/-- The handshake read when the handshake occurs at poll `j` and the first
three agreeing samples start at index `i`, within the eight samples taken. -/
theorem handshaked_read_stable (s : State) (toggle : Int) (j i : Nat)
    (hj : j ≤ TO_HANDSHAKED_READ + 1)
    (hb : ∀ k, k < j → data_get s k = busy_level toggle)
    (hd : data_get s j ≠ busy_level toggle)
    (hi : i + 2 < 8) (hu : ∀ k, k < i → ¬ stable3 (sample s) k)
    (hs : stable3 (sample s) i) :
    cbm_handshaked_read s toggle =
      (sample s i,
        { reads (i + 3) (polls (j + 1) (RELEASE DATA_IN s)) with oldvalue := sample s i }) := by
  have hw := handshake_wait_ok TO_HANDSHAKED_READ (busy_level toggle) j 0 (RELEASE DATA_IN s)
    (fun k hk => by rw [data_get_RELEASE]; exact hb k hk)
    (by rw [data_get_RELEASE]; exact hd) (by omega)
  have hsm := sample_polls_RELEASE (j + 1) DATA_IN s
  unfold cbm_handshaked_read
  simp only [busy_level] at hw
  simp only [hw, XP_READ_fst, Bool.false_eq_true, if_false]
  have hdb := debounce_stable (i + 1) 0 0 (-(sample (polls (j + 1) (RELEASE DATA_IN s)) 0) - 1)
    (sample (polls (j + 1) (RELEASE DATA_IN s)) 0)
    (XP_READ (polls (j + 1) (RELEASE DATA_IN s))).2 (by omega)
    (by
      intro k hk
      match k with
      | 0 => exact not_stable3_init _
      | k + 1 =>
        rw [stable3_init, hsm]
        exact hu k (by omega))
    (by rw [stable3_init, hsm]; exact hs)
  rw [hdb, window_init, hsm, ← reads_succ]

/-- The handshake read when the handshake occurs at poll `j` and no three
consecutive samples among the eight taken agree. -/
theorem handshaked_read_unstable (s : State) (toggle : Int) (j : Nat)
    (hj : j ≤ TO_HANDSHAKED_READ + 1)
    (hb : ∀ k, k < j → data_get s k = busy_level toggle)
    (hd : data_get s j ≠ busy_level toggle)
    (hu : ∀ k, k + 2 < 8 → ¬ stable3 (sample s) k) :
    cbm_handshaked_read s toggle =
      (sample s 5,
        { device_printf Msg.debounce_timeout
            (reads 8 (polls (j + 1) (RELEASE DATA_IN s))) with oldvalue := sample s 5 }) := by
  have hw := handshake_wait_ok TO_HANDSHAKED_READ (busy_level toggle) j 0 (RELEASE DATA_IN s)
    (fun k hk => by rw [data_get_RELEASE]; exact hb k hk)
    (by rw [data_get_RELEASE]; exact hd) (by omega)
  have hsm := sample_polls_RELEASE (j + 1) DATA_IN s
  unfold cbm_handshaked_read
  simp only [busy_level] at hw
  simp only [hw, XP_READ_fst, Bool.false_eq_true, if_false]
  have hdb := debounce_unstable 7 0 0 (-(sample (polls (j + 1) (RELEASE DATA_IN s)) 0) - 1)
    (sample (polls (j + 1) (RELEASE DATA_IN s)) 0)
    (XP_READ (polls (j + 1) (RELEASE DATA_IN s))).2 (by omega)
    (by
      intro k hk
      match k with
      | 0 => exact not_stable3_init _
      | k + 1 =>
        rw [stable3_init, hsm]
        exact hu k (by omega))
  rw [hdb]
  simp only [Nat.reduceEqDiff, if_false, Nat.add_one_sub_one]
  rw [window_init, hsm, ← reads_succ]

theorem sample_range (s : State) (k : Nat) : 0 ≤ sample s k ∧ sample s k ≤ 255 := by
  unfold sample
  have h : s.dtr_in (s.dtr_pos + k) % 256 < 256 := Nat.mod_lt _ (by norm_num)
  omega

/-- Every call of the handshake read has one of three outcomes. -/
theorem handshaked_read_cases (s : State) (toggle : Int) :
    ((∀ k, k ≤ TO_HANDSHAKED_READ + 1 → data_get s k = busy_level toggle) ∧
      cbm_handshaked_read s toggle =
        (-1, polls (TO_HANDSHAKED_READ + 2) (RELEASE DATA_IN s))) ∨
    (∃ j, j ≤ TO_HANDSHAKED_READ + 1 ∧ (∀ k, k < j → data_get s k = busy_level toggle) ∧
      data_get s j ≠ busy_level toggle ∧
      ((∃ i, i + 2 < 8 ∧ (∀ k, k < i → ¬ stable3 (sample s) k) ∧ stable3 (sample s) i ∧
          cbm_handshaked_read s toggle =
            (sample s i,
              { reads (i + 3) (polls (j + 1) (RELEASE DATA_IN s)) with
                oldvalue := sample s i })) ∨
        ((∀ k, k + 2 < 8 → ¬ stable3 (sample s) k) ∧
          cbm_handshaked_read s toggle =
            (sample s 5,
              { device_printf Msg.debounce_timeout
                  (reads 8 (polls (j + 1) (RELEASE DATA_IN s))) with
                oldvalue := sample s 5 })))) := by
  by_cases h : ∀ k, k ≤ TO_HANDSHAKED_READ + 1 → data_get s k = busy_level toggle
  · exact Or.inl ⟨h, handshaked_read_timeout s toggle h⟩
  · right
    have hex : ∃ k, k ≤ TO_HANDSHAKED_READ + 1 ∧ data_get s k ≠ busy_level toggle := by
      by_contra hne
      apply h
      intro k hk
      by_contra hk2
      exact hne ⟨k, hk, hk2⟩
    have hj := (Nat.find_spec hex).1
    have hd := (Nat.find_spec hex).2
    have hb : ∀ k, k < Nat.find hex → data_get s k = busy_level toggle := by
      intro k hk
      by_contra hk2
      exact Nat.find_min hex hk ⟨by omega, hk2⟩
    refine ⟨Nat.find hex, hj, hb, hd, ?_⟩
    by_cases hst : ∃ i, i + 2 < 8 ∧ stable3 (sample s) i
    · left
      have hu : ∀ k, k < Nat.find hst → ¬ stable3 (sample s) k := by
        intro k hk hk2
        exact Nat.find_min hst hk ⟨by have := (Nat.find_spec hst).1; omega, hk2⟩
      exact ⟨Nat.find hst, (Nat.find_spec hst).1, hu, (Nat.find_spec hst).2,
        handshaked_read_stable s toggle _ _ hj hb hd (Nat.find_spec hst).1 hu
          (Nat.find_spec hst).2⟩
    · right
      have hu : ∀ k, k + 2 < 8 → ¬ stable3 (sample s) k := by
        intro k hk hk2
        exact hst ⟨k, hk, hk2⟩
      exact ⟨hu, handshaked_read_unstable s toggle _ hj hb hd hu⟩

/-! ## Log lines and positions of the closed forms -/

theorem logs_polls (n : Nat) (s : State) : logs (polls n s) = logs s := by
  rw [polls_eq]
  simp [logs, List.countP_append, List.countP_eq_zero, Event.is_printf]

theorem logs_reads (n : Nat) (s : State) : logs (reads n s) = logs s := by
  rw [reads_eq]
  simp [logs, List.countP_append, List.countP_eq_zero, Event.is_printf]

theorem logs_RELEASE (line : Nat) (s : State) : logs (RELEASE line s) = logs s := by
  simp [logs, RELEASE, CTRL_WRITE, emit, List.countP_append, Event.is_printf]

theorem logs_device_printf (m : Msg) (s : State) : logs (device_printf m s) = logs s + 1 := by
  simp [logs, device_printf, emit, List.countP_append, Event.is_printf]

theorem logs_oldvalue (s : State) (v : Int) : logs { s with oldvalue := v } = logs s := rfl

theorem dtr_pos_reads (n : Nat) (s : State) : (reads n s).dtr_pos = s.dtr_pos + n := by
  rw [reads_eq]

theorem dtr_pos_polls_RELEASE (n line : Nat) (s : State) :
    (polls n (RELEASE line s)).dtr_pos = s.dtr_pos := by
  rw [polls_eq]; rfl

theorem str_pos_polls_RELEASE (n line : Nat) (s : State) :
    (polls n (RELEASE line s)).str_pos = s.str_pos + n := by
  rw [polls_eq]; rfl

/-! ## Claims on the handshake read -/

/-- C5: `cbm_handshaked_read` returns the sentinel -1 exactly when the spin is
exhausted, that is when every poll with counter 0 up to `TO_HANDSHAKED_READ + 1`
(the first counter value exceeding the bound) finds DATA at the level opposite
to the one the toggle asks for (asserted for `toggle = 0`, not asserted
otherwise); the return then happens on that poll, after
`TO_HANDSHAKED_READ + 2` polls.  In every other case the result is a byte in
0..255, on the stable and on the debounce-failure path alike. -/
theorem C5_handshaked_read_sentinel (s : State) (toggle : Int) :
    ((cbm_handshaked_read s toggle).1 = -1 ↔
      ∀ k, k ≤ TO_HANDSHAKED_READ + 1 → data_get s k = (if toggle = 0 then 1 else 0)) ∧
    ((cbm_handshaked_read s toggle).1 = -1 →
      (cbm_handshaked_read s toggle).2.str_pos = s.str_pos + (TO_HANDSHAKED_READ + 2)) ∧
    ((cbm_handshaked_read s toggle).1 ≠ -1 →
      0 ≤ (cbm_handshaked_read s toggle).1 ∧ (cbm_handshaked_read s toggle).1 ≤ 255) := by
  rcases handshaked_read_cases s toggle with ⟨hb, h⟩ | ⟨j, hj, _, hd, h⟩
  · rw [h]
    refine ⟨⟨fun _ => hb, fun _ => rfl⟩, fun _ => ?_, fun hne => absurd rfl hne⟩
    exact str_pos_polls_RELEASE _ _ _
  · have hv : ∀ i, sample s i ≠ -1 := fun i => by have := sample_range s i; omega
    have hnb : ¬ ∀ k, k ≤ TO_HANDSHAKED_READ + 1 → data_get s k = (if toggle = 0 then 1 else 0) :=
      fun hall => hd (hall j hj)
    rcases h with ⟨i, _, _, _, h⟩ | ⟨_, h⟩
    · rw [h]
      exact ⟨⟨fun he => absurd he (hv i), fun hall => absurd hall hnb⟩,
        fun he => absurd he (hv i), fun _ => sample_range s i⟩
    · rw [h]
      exact ⟨⟨fun he => absurd he (hv 5), fun hall => absurd hall hnb⟩,
        fun he => absurd he (hv 5), fun _ => sample_range s 5⟩

/-- C5 at two partners: one that never releases DATA (sentinel), one that has
released it at the first poll (a byte). -/
theorem C5_handshaked_read_sentinel_witness :
    (cbm_handshaked_read st_stalled 0).1 = -1 ∧ (cbm_handshaked_read st_steady 0).1 ≠ -1 :=
  ⟨(C5_handshaked_read_sentinel st_stalled 0).1.mpr
      (fun _ _ => by simp [data_get, st_stalled, idle_state, DATA_IN]),
    fun h => absurd ((C5_handshaked_read_sentinel st_steady 0).1.mp h 0 (Nat.zero_le _))
      (by decide)⟩

/-- C6: after a successful handshake, if `i` is the least index with
`s_i = s_(i+1) = s_(i+2)` and that triple lies within the eight samples taken,
the call returns `s_i`, has read exactly the samples `s_0 .. s_(i+2)` and has
logged nothing; conversely a call that returns without logging returns a value
equal to three consecutive samples it has read. -/
theorem C6_debounce_accepts (s : State) (toggle : Int)
    (hok : (cbm_handshaked_read s toggle).1 ≠ -1) :
    (∀ i, i + 2 < 8 → (∀ k, k < i → ¬ stable3 (sample s) k) → stable3 (sample s) i →
      (cbm_handshaked_read s toggle).1 = sample s i ∧
      (cbm_handshaked_read s toggle).2.dtr_pos = s.dtr_pos + (i + 3) ∧
      logs (cbm_handshaked_read s toggle).2 = logs s) ∧
    (logs (cbm_handshaked_read s toggle).2 = logs s →
      ∃ k, s.dtr_pos + (k + 3) ≤ (cbm_handshaked_read s toggle).2.dtr_pos ∧
        (cbm_handshaked_read s toggle).1 = sample s k ∧
        sample s k = sample s (k + 1) ∧ sample s k = sample s (k + 2)) := by
  rcases handshaked_read_cases s toggle with ⟨_, h⟩ | ⟨j, hj, hb, hd, h⟩
  · rw [h] at hok
    exact absurd rfl hok
  · have hgood : ∀ i, i + 2 < 8 → (∀ k, k < i → ¬ stable3 (sample s) k) →
        stable3 (sample s) i →
        (cbm_handshaked_read s toggle).1 = sample s i ∧
        (cbm_handshaked_read s toggle).2.dtr_pos = s.dtr_pos + (i + 3) ∧
        logs (cbm_handshaked_read s toggle).2 = logs s := by
      intro i hi hu hs
      rw [handshaked_read_stable s toggle j i hj hb hd hi hu hs]
      refine ⟨rfl, ?_, ?_⟩
      · show (reads (i + 3) (polls (j + 1) (RELEASE DATA_IN s))).dtr_pos = _
        rw [dtr_pos_reads, dtr_pos_polls_RELEASE]
      · rw [logs_oldvalue, logs_reads, logs_polls, logs_RELEASE]
    refine ⟨hgood, ?_⟩
    rcases h with ⟨i, hi, hu, hs, _⟩ | ⟨_, h⟩
    · intro _
      obtain ⟨h1, h2, _⟩ := hgood i hi hu hs
      exact ⟨i, by rw [h2], h1, hs.1, hs.2⟩
    · intro hl
      rw [h, logs_oldvalue, logs_device_printf, logs_reads, logs_polls, logs_RELEASE] at hl
      omega

/-- C6 at a partner with a steady byte: the first three samples agree, 0x41 is
returned after exactly three samples and nothing is logged. -/
theorem C6_debounce_accepts_witness :
    (cbm_handshaked_read st_steady 0).1 = 0x41 ∧
    (cbm_handshaked_read st_steady 0).2.dtr_pos = 3 ∧
    logs (cbm_handshaked_read st_steady 0).2 = 0 :=
  (C6_debounce_accepts st_steady 0
    (by
      rw [handshaked_read_stable st_steady 0 0 0 (Nat.zero_le _) (fun _ hk => absurd hk (Nat.not_lt_zero _))
        (by decide) (by decide) (fun _ hk => absurd hk (Nat.not_lt_zero _)) (by decide)]
      decide)).1 0 (by decide) (fun _ hk => absurd hk (Nat.not_lt_zero _)) (by decide)

/-- C7, as the code has it: after a successful handshake, when no three
consecutive samples among the first nine agree, the call reads exactly eight
samples, returns the sixth of them (`s_5`, the oldest of the last three read)
and logs exactly once. -/
theorem C7_debounce_gives_up (s : State) (toggle : Int)
    (hok : (cbm_handshaked_read s toggle).1 ≠ -1)
    (hch : ∀ k, k + 2 < 9 → ¬ stable3 (sample s) k) :
    (cbm_handshaked_read s toggle).1 = sample s 5 ∧
    (cbm_handshaked_read s toggle).2.dtr_pos = s.dtr_pos + 8 ∧
    logs (cbm_handshaked_read s toggle).2 = logs s + 1 := by
  rcases handshaked_read_cases s toggle with ⟨_, h⟩ | ⟨j, hj, hb, hd, _⟩
  · rw [h] at hok
    exact absurd rfl hok
  · rw [handshaked_read_unstable s toggle j hj hb hd (fun k hk => hch k (by omega))]
    refine ⟨rfl, ?_, ?_⟩
    · show (reads 8 (polls (j + 1) (RELEASE DATA_IN s))).dtr_pos = _
      rw [dtr_pos_reads, dtr_pos_polls_RELEASE]
    · rw [logs_oldvalue, logs_device_printf, logs_reads, logs_polls, logs_RELEASE]

theorem st_chatter_unstable (k : Nat) (hk : k + 2 < 9) : ¬ stable3 (sample st_chatter) k := by
  have hk7 : k < 7 := by omega
  interval_cases k <;> decide

theorem st_chatter_read :
    cbm_handshaked_read st_chatter 0 =
      (sample st_chatter 5,
        { device_printf Msg.debounce_timeout
            (reads 8 (polls (0 + 1) (RELEASE DATA_IN st_chatter))) with
          oldvalue := sample st_chatter 5 }) :=
  handshaked_read_unstable st_chatter 0 0 (Nat.zero_le _)
    (fun _ hk => absurd hk (Nat.not_lt_zero _)) (by decide)
    (fun k hk => st_chatter_unstable k (by omega))

/-- C7 at a partner whose data lines read 0, 1, 2, ...: 5 is returned after
eight samples, with one log line. -/
theorem C7_debounce_gives_up_witness :
    (cbm_handshaked_read st_chatter 0).1 = 5 ∧
    (cbm_handshaked_read st_chatter 0).2.dtr_pos = 8 ∧
    logs (cbm_handshaked_read st_chatter 0).2 = 1 :=
  C7_debounce_gives_up st_chatter 0 (by rw [st_chatter_read]; decide) st_chatter_unstable

/-- C7 as stated fails: with data lines reading 0, 1, 2, ... no three
consecutive samples agree, the handshake succeeds, and the value returned is
not the eighth sample (the last one read) but the sixth. -/
theorem C7_returns_last_sample_counterexample :
    (∀ k, k + 2 < 9 → ¬ stable3 (sample st_chatter) k) ∧
    (cbm_handshaked_read st_chatter 0).1 ≠ -1 ∧
    (cbm_handshaked_read st_chatter 0).2.dtr_pos = st_chatter.dtr_pos + 8 ∧
    (cbm_handshaked_read st_chatter 0).1 = sample st_chatter 5 ∧
    (cbm_handshaked_read st_chatter 0).1 ≠ sample st_chatter 7 := by
  rw [st_chatter_read]
  refine ⟨st_chatter_unstable, by decide, ?_, rfl, by decide⟩
  show (reads 8 (polls (0 + 1) (RELEASE DATA_IN st_chatter))).dtr_pos = _
  rw [dtr_pos_reads, dtr_pos_polls_RELEASE]

/-! ## Bus arbitration -/

theorem released_low_nibble (b : Nat) : (b &&& cnot 15) % 256 &&& 15 = 0 := by
  have h256 : (256 : Nat) = 2 ^ 8 := by norm_num
  unfold cnot
  rw [h256, ← Nat.and_pow_two_sub_one_eq_mod, Nat.and_assoc, Nat.and_assoc]
  have h : ((0xFFFFFFFF ^^^ 15) &&& ((2 ^ 8 - 1) &&& 15) : Nat) = 0 := by decide
  rw [h]
  simp

/-- C8: `check_if_bus_free` returns 1 exactly when DATA is asserted at the
sample taken after ATN was asserted (a device responded) and no longer asserted
at the sample taken after ATN was released; it returns 0 otherwise.  When no
device responds only one sample is taken.  The trace shows where the samples
fall between the control writes.  On exit the ATN, CLOCK, DATA and RESET bits
of the latch are clear, and the last action is the control write of the latch
through the polarity mask, which the control register then holds. -/
theorem C8_check_if_bus_free (s : State) :
    ((check_if_bus_free s).1 = 1 ↔ (data_get s 0 = 1 ∧ data_get s 1 = 0)) ∧
    ((check_if_bus_free s).1 = 0 ↔ ¬ (data_get s 0 = 1 ∧ data_get s 1 = 0)) ∧
    (data_get s 0 = 0 →
      (check_if_bus_free s).1 = 0 ∧ (check_if_bus_free s).2.str_pos = s.str_pos + 1 ∧
      (check_if_bus_free s).2.trace = s.trace ++ tagged s
        [Event.ctrl_write ((s.sc_out_eor ^^^ (s.sc_out_bits &&& cnot 15) % 256) % 256),
          Event.delay 100,
          Event.ctrl_write
            ((s.sc_out_eor ^^^ ((s.sc_out_bits &&& cnot 15) % 256 ||| ATN_OUT) % 256) % 256),
          Event.delay 100,
          Event.status_read (s.str s.str_pos % 256),
          Event.ctrl_write ((s.sc_out_eor ^^^ (check_if_bus_free s).2.sc_out_bits) % 256)]) ∧
    (data_get s 0 = 1 →
      (check_if_bus_free s).2.str_pos = s.str_pos + 2 ∧
      (check_if_bus_free s).2.trace = s.trace ++ tagged s
        [Event.ctrl_write ((s.sc_out_eor ^^^ (s.sc_out_bits &&& cnot 15) % 256) % 256),
          Event.delay 100,
          Event.ctrl_write
            ((s.sc_out_eor ^^^ ((s.sc_out_bits &&& cnot 15) % 256 ||| ATN_OUT) % 256) % 256),
          Event.delay 100,
          Event.status_read (s.str s.str_pos % 256),
          Event.ctrl_write
            ((s.sc_out_eor ^^^
              (((s.sc_out_bits &&& cnot 15) % 256 ||| ATN_OUT) % 256 &&& cnot ATN_OUT) % 256)
                % 256),
          Event.delay 100,
          Event.status_read (s.str (s.str_pos + 1) % 256),
          Event.ctrl_write ((s.sc_out_eor ^^^ (check_if_bus_free s).2.sc_out_bits) % 256)]) ∧
    (check_if_bus_free s).2.sc_out_bits &&& (ATN_OUT ||| CLK_OUT ||| DATA_OUT ||| RESET) = 0 ∧
    (check_if_bus_free s).2.sc_out_eor = s.sc_out_eor ∧
    (check_if_bus_free s).2.ctr =
      (s.sc_out_eor ^^^ (check_if_bus_free s).2.sc_out_bits) % 256 ∧
    (check_if_bus_free s).2.trace.getLast? =
      some (s.intr,
        Event.ctrl_write ((s.sc_out_eor ^^^ (check_if_bus_free s).2.sc_out_bits) % 256)) := by
  have hm : ATN_OUT ||| CLK_OUT ||| DATA_OUT ||| RESET = 15 := by decide
  have hg0 : data_get s 0 = 0 ∨ data_get s 0 = 1 := by
    unfold data_get; split <;> simp
  have hg1 : data_get s 1 = 0 ∨ data_get s 1 = 1 := by
    unfold data_get; split <;> simp
  have e0 : (if s.str s.str_pos % 256 &&& DATA_IN = 0 then 1 else 0) = data_get s 0 := by
    simp [data_get]
  have e1 : (if s.str (s.str_pos + 1) % 256 &&& DATA_IN = 0 then 1 else 0) = data_get s 1 := by
    simp [data_get]
  rcases hg0 with h0 | h0
  · simp [check_if_bus_free, RELEASE, SET, GET, POLL, DELAY, CTRL_WRITE, emit, tagged, hm, e0,
      h0, released_low_nibble]
  · rcases hg1 with h1 | h1
    · simp [check_if_bus_free, RELEASE, SET, GET, POLL, DELAY, CTRL_WRITE, emit, tagged, hm, e0,
        e1, h0, h1, released_low_nibble]
    · simp [check_if_bus_free, RELEASE, SET, GET, POLL, DELAY, CTRL_WRITE, emit, tagged, hm, e0,
        e1, h0, h1, released_low_nibble]

/-- C8 at two partners: no device on the bus (not free, one sample), and a
device that answers ATN and releases DATA (free). -/
theorem C8_check_if_bus_free_witness :
    ((check_if_bus_free st_no_device).1 = 0 ∧
      (check_if_bus_free st_no_device).2.str_pos = st_no_device.str_pos + 1) ∧
    (check_if_bus_free st_device).1 = 1 :=
  ⟨⟨((C8_check_if_bus_free st_no_device).2.2.1 (by decide)).1,
      ((C8_check_if_bus_free st_no_device).2.2.1 (by decide)).2.1⟩,
    (C8_check_if_bus_free st_device).1.mpr ⟨by decide, by decide⟩⟩

/-! ## The handshake write -/

/-- The handshake write when the spin is exhausted. -/
theorem handshaked_write_timeout (s : State) (data : Nat) (toggle : Int)
    (hb : ∀ k, k ≤ TO_HANDSHAKED_WRITE + 1 → data_get s k = busy_level toggle) :
    cbm_handshaked_write s data toggle =
      (1, polls (TO_HANDSHAKED_WRITE + 2) (RELEASE CLK_IN s)) := by
  have hw := handshake_wait_timeout TO_HANDSHAKED_WRITE (busy_level toggle)
    (TO_HANDSHAKED_WRITE + 1) 0 (RELEASE CLK_IN s) (by omega)
    (fun k hk => by rw [data_get_RELEASE]; exact hb k hk)
  have e : TO_HANDSHAKED_WRITE + 1 + 1 = TO_HANDSHAKED_WRITE + 2 := rfl
  rw [e] at hw
  unfold cbm_handshaked_write
  simp only [busy_level] at hw
  dsimp only
  rw [hw]
  simp only [if_true]

/-- The handshake write when the handshake occurs at poll `j`. -/
theorem handshaked_write_done (s : State) (data : Nat) (toggle : Int) (j : Nat)
    (hj : j ≤ TO_HANDSHAKED_WRITE + 1)
    (hb : ∀ k, k < j → data_get s k = busy_level toggle)
    (hd : data_get s j ≠ busy_level toggle) :
    cbm_handshaked_write s data toggle =
      (1, XP_WRITE data
        (if (polls (j + 1) (RELEASE CLK_IN s)).sc_data_reverse ≠ 0
          then set_data_forward (polls (j + 1) (RELEASE CLK_IN s))
          else polls (j + 1) (RELEASE CLK_IN s))) := by
  have hw := handshake_wait_ok TO_HANDSHAKED_WRITE (busy_level toggle) j 0 (RELEASE CLK_IN s)
    (fun k hk => by rw [data_get_RELEASE]; exact hb k hk)
    (by rw [data_get_RELEASE]; exact hd) (by omega)
  unfold cbm_handshaked_write
  simp only [busy_level] at hw
  dsimp only
  rw [hw]
  simp only [Bool.false_eq_true, if_false]

/-- Whatever the partner does, the handshake write returns 1. -/
theorem handshaked_write_result (s : State) (data : Nat) (toggle : Int) :
    (cbm_handshaked_write s data toggle).1 = 1 := by
  unfold cbm_handshaked_write
  dsimp only
  by_cases h : (handshake_wait TO_HANDSHAKED_WRITE (if toggle = 0 then 1 else 0) 0
      (RELEASE CLK_IN s)).1 = true
  · rw [if_pos h]
  · rw [if_neg h]

theorem data_writes_polls (n : Nat) (s : State) : data_writes (polls n s) = data_writes s := by
  rw [polls_eq]
  simp [data_writes, List.filterMap_append, List.filterMap_map, Function.comp_def]

theorem data_writes_RELEASE (line : Nat) (s : State) :
    data_writes (RELEASE line s) = data_writes s := by
  simp [data_writes, RELEASE, CTRL_WRITE, emit, List.filterMap_append]

theorem data_writes_XP_WRITE (c : Nat) (s : State) :
    data_writes (XP_WRITE c s) = data_writes s ++ [c % 256] := by
  simp [data_writes, XP_WRITE, emit, List.filterMap_append]

theorem data_writes_set_data_forward (s : State) :
    data_writes (set_data_forward s) = data_writes s := by
  simp [data_writes, set_data_forward, CTRL_READ, CTRL_WRITE, emit, List.filterMap_append]

theorem data_writes_intr_restore (b : Bool) (s : State) :
    data_writes (intr_restore b s) = data_writes s := by
  simp [data_writes, intr_restore, emit, List.filterMap_append]

theorem data_writes_intr_disable (s : State) :
    data_writes (intr_disable s).2 = data_writes s := by
  simp [data_writes, intr_disable, emit, List.filterMap_append]

/-- C3, the code at two partners: a write that completes (the byte 0x41 reaches
the data register) and a write that times out (nothing is written) both return
1, so the result does not tell them apart. -/
theorem C3_write_result_indistinguishable :
    ((cbm_handshaked_write st_steady 0x41 0).1 = 1 ∧
      data_writes (cbm_handshaked_write st_steady 0x41 0).2 = [0x41]) ∧
    ((cbm_handshaked_write st_stalled 0x41 0).1 = 1 ∧
      data_writes (cbm_handshaked_write st_stalled 0x41 0).2 = []) := by
  constructor
  · rw [handshaked_write_done st_steady 0x41 0 0 (Nat.zero_le _)
      (fun _ hk => absurd hk (Nat.not_lt_zero _)) (by decide)]
    refine ⟨rfl, ?_⟩
    rw [data_writes_XP_WRITE, if_neg, data_writes_polls, data_writes_RELEASE]
    · rfl
    · rw [polls_eq]
      decide
  · rw [handshaked_write_timeout st_stalled 0x41 0
      (fun _ _ => by simp [data_get, st_stalled, idle_state, DATA_IN, busy_level])]
    refine ⟨rfl, ?_⟩
    rw [data_writes_polls, data_writes_RELEASE]
    rfl

/-! ## The track read loops -/

theorem hs_read_state_zero (s : State) : hs_read_state s 0 = s := rfl

theorem hs_read_state_succ (s : State) (i : Nat) :
    hs_read_state s (i + 1) =
      (cbm_handshaked_read (hs_read_state s i) ((i % 2 : Nat) : Int)).2 := rfl

theorem hs_read_byte_zero (s : State) :
    hs_read_byte s 0 = (cbm_handshaked_read s 0).1 := rfl

theorem hs_read_byte_eq (s : State) (i : Nat) :
    hs_read_byte s i = (cbm_handshaked_read (hs_read_state s i) ((i % 2 : Nat) : Int)).1 := rfl

attribute [irreducible] hs_read_state

theorem handshaked_read_range (s : State) (toggle : Int) :
    (cbm_handshaked_read s toggle).1 = -1 ∨
      (0 ≤ (cbm_handshaked_read s toggle).1 ∧ (cbm_handshaked_read s toggle).1 ≤ 255) := by
  rcases handshaked_read_cases s toggle with ⟨_, h⟩ | ⟨j, _, _, _, ⟨i, _, _, _, h⟩ | ⟨_, h⟩⟩
  · left; rw [h]
  · right; rw [h]; exact sample_range s i
  · right; rw [h]; exact sample_range s 5

theorem filled_stored (s : State) (b : Buffer) (i k : Nat) (hik : i < k) :
    filled s (b.store i (hs_read_byte s i)) (i + 1) k = filled s b i k := by
  funext j
  unfold filled Buffer.store
  by_cases h1 : i + 1 ≤ j ∧ j < k
  · rw [if_pos h1, if_pos ⟨by omega, h1.2⟩]
  · rw [if_neg h1]
    by_cases h2 : j = i
    · subst h2
      rw [if_pos rfl, if_pos ⟨Nat.le_refl _, hik⟩]
    · rw [if_neg h2, if_neg]
      intro h3
      exact h1 ⟨by omega, h3.2⟩

theorem filled_empty (s : State) (b : Buffer) (k : Nat) : filled s b k k = b := by
  funext j
  unfold filled
  rw [if_neg]
  omega

theorem filled_inside (s : State) (b : Buffer) (i k j : Nat) (h1 : i ≤ j) (h2 : j < k)
    (hok : hs_read_byte s j ≠ -1) : ((filled s b i k j : Nat) : Int) = hs_read_byte s j := by
  unfold filled
  rw [if_pos ⟨h1, h2⟩]
  have hr := handshaked_read_range (hs_read_state s j) ((j % 2 : Nat) : Int)
  unfold hs_read_byte at hok ⊢
  rcases hr with hr | hr
  · exact absurd hr hok
  · omega

theorem filled_outside (s : State) (b : Buffer) (i k j : Nat) (h : j < i ∨ k ≤ j) :
    filled s b i k j = b j := by
  unfold filled
  rw [if_neg]
  omega

/-- The loop of the track read when read `k` is the first to time out. -/
theorem read_track_loop_timeout (sv : Bool) (s : State) (k : Nat) (hk : k < 0x2000)
    (hok : ∀ i, i < k → hs_read_byte s i ≠ -1) (hto : hs_read_byte s k = -1) (d : Nat) :
    ∀ (i : Nat) (b : Buffer), i + d = k →
      read_track_loop sv i (hs_read_state s i) b =
        (LoopExit.returned, intr_restore sv (hs_read_state s (k + 1)), filled s b i k) := by
  induction d with
  | zero =>
    intro i b hi
    have hik : i = k := by omega
    subst hik
    rw [read_track_loop, dif_pos hk]
    have hb : (cbm_handshaked_read (hs_read_state s i) (((i &&& 1 : Nat)) : Int)).1 = -1 := by
      rw [Nat.and_one_is_mod]; exact hto
    simp only [hb, if_true]
    rw [hs_read_state_succ, Nat.and_one_is_mod, filled_empty]
  | succ d ih =>
    intro i b hi
    have hik : i < k := by omega
    rw [read_track_loop, dif_pos (by omega)]
    have hb : ¬ (cbm_handshaked_read (hs_read_state s i) (((i &&& 1 : Nat)) : Int)).1 = -1 := by
      rw [Nat.and_one_is_mod]; exact hok i hik
    simp only [hb, if_false]
    rw [Nat.and_one_is_mod, ← hs_read_state_succ]
    have e : (cbm_handshaked_read (hs_read_state s i) ((i % 2 : Nat) : Int)).1 =
        hs_read_byte s i := rfl
    rw [e, ih (i + 1) _ (by omega), filled_stored s b i k hik]

/-- The loop of the track read when no read times out. -/
theorem read_track_loop_complete (sv : Bool) (s : State)
    (hok : ∀ i, i < 0x2000 → hs_read_byte s i ≠ -1) (d : Nat) :
    ∀ (i : Nat) (b : Buffer), i + d = 0x2000 →
      read_track_loop sv i (hs_read_state s i) b =
        (LoopExit.fell_through, hs_read_state s 0x2000, filled s b i 0x2000) := by
  induction d with
  | zero =>
    intro i b hi
    have hik : i = 0x2000 := by omega
    subst hik
    rw [read_track_loop, dif_neg (Nat.lt_irrefl _), filled_empty]
  | succ d ih =>
    intro i b hi
    have hik : i < 0x2000 := by omega
    rw [read_track_loop, dif_pos hik]
    have hb : ¬ (cbm_handshaked_read (hs_read_state s i) (((i &&& 1 : Nat)) : Int)).1 = -1 := by
      rw [Nat.and_one_is_mod]; exact hok i hik
    simp only [hb, if_false]
    rw [Nat.and_one_is_mod, ← hs_read_state_succ]
    have e : (cbm_handshaked_read (hs_read_state s i) ((i % 2 : Nat) : Int)).1 =
        hs_read_byte s i := rfl
    rw [e, ih (i + 1) _ (by omega), filled_stored s b i 0x2000 hik]

/-- C1: `cbm_parallel_burst_read_track`.  With `s1` the state right after
`intr_disable`, handshake read `i` is the read made with toggle `i mod 2` in the
state left by read `i - 1` (`hs_read_state`, `hs_read_byte`).  If none of the
8192 reads times out and the closing burst read returns `r`, the call returns 1,
its final state is that of the closing read with the interrupt state restored,
and `buffer[i]` is the byte of read `i` for every `i < 8192`.  If read `k` is
the first to time out, the call returns 0 whatever the fuel, its final state is
the one left by read `k` with the interrupt state restored (no further read, no
closing burst read), `buffer[0..k-1]` holds the bytes read and the cells from
`k` on are unchanged. -/
theorem C1_burst_read_track (s : State) (buffer : Buffer) (fuel : Nat) :
    (∀ r, (∀ i, i < 8192 → hs_read_byte (intr_disable s).2 i ≠ -1) →
      cbm_parallel_burst_read fuel (hs_read_state (intr_disable s).2 8192) = some r →
      ∃ buffer', cbm_parallel_burst_read_track fuel s buffer =
          some (1, intr_restore s.intr r.2, buffer') ∧
        (∀ i, i < 8192 → ((buffer' i : Nat) : Int) = hs_read_byte (intr_disable s).2 i) ∧
        (∀ i, 8192 ≤ i → buffer' i = buffer i)) ∧
    (∀ k, k < 8192 → (∀ i, i < k → hs_read_byte (intr_disable s).2 i ≠ -1) →
      hs_read_byte (intr_disable s).2 k = -1 →
      ∃ buffer', cbm_parallel_burst_read_track fuel s buffer =
          some (0, intr_restore s.intr (hs_read_state (intr_disable s).2 (k + 1)), buffer') ∧
        (∀ i, i < k → ((buffer' i : Nat) : Int) = hs_read_byte (intr_disable s).2 i) ∧
        (∀ i, k ≤ i → buffer' i = buffer i)) := by
  constructor
  · intro r hok hr
    have hl := read_track_loop_complete (intr_disable s).1 (intr_disable s).2 hok 0x2000 0
      buffer rfl
    rw [hs_read_state_zero] at hl
    refine ⟨filled (intr_disable s).2 buffer 0 0x2000, ?_, ?_, ?_⟩
    · unfold cbm_parallel_burst_read_track
      dsimp only
      rw [hl]
      dsimp only
      rw [hr]
      rfl
    · intro i hi
      exact filled_inside _ _ _ _ _ (Nat.zero_le _) hi (hok i hi)
    · intro i hi
      exact filled_outside _ _ _ _ _ (Or.inr hi)
  · intro k hk hok hto
    have hl := read_track_loop_timeout (intr_disable s).1 (intr_disable s).2 k hk hok hto k 0
      buffer (Nat.zero_add k)
    rw [hs_read_state_zero] at hl
    refine ⟨filled (intr_disable s).2 buffer 0 k, ?_, ?_, ?_⟩
    · unfold cbm_parallel_burst_read_track
      dsimp only
      rw [hl]
      rfl
    · intro i hi
      exact filled_inside _ _ _ _ _ (Nat.zero_le _) hi (hok i hi)
    · intro i hi
      exact filled_outside _ _ _ _ _ (Or.inr hi)

/-! ## Cooperating partners -/

theorem spin_while_done (busy fuel : Nat) (s : State) (h : data_get s 0 ≠ busy) :
    spin_while busy (fuel + 1) s = some (POLL s).2 := by
  rw [spin_while, GET_DATA_IN_eq]
  simp [h]

/-- The burst read returns once the partner has DATA released at the first
poll and asserted at the second. -/
theorem data_get_after_read (p : State) (k : Nat) :
    data_get (DELAY 10 (RELEASE ATN_OUT (DELAY 5 (XP_READ
      (if p.sc_data_reverse = 0 then set_data_reverse (XP_WRITE 0xff p) else p)).2))) k =
      data_get p k := by
  by_cases h : p.sc_data_reverse = 0 <;>
    simp [h, data_get, DELAY, RELEASE, XP_READ, set_data_reverse, XP_WRITE, CTRL_READ,
      CTRL_WRITE, emit]

theorem burst_read_returns (fuel : Nat) (s : State) (h0 : data_get s 0 = 0)
    (h1 : data_get s 1 = 1) : ∃ r, cbm_parallel_burst_read (fuel + 1) s = some r := by
  have e0 : ∀ k, data_get (DELAY 20 (SET ATN_OUT (RELEASE (DATA_OUT ||| CLK_OUT) s))) k =
      data_get s k := fun k => data_get_congr rfl rfl k
  unfold cbm_parallel_burst_read
  dsimp only
  rw [spin_while_done 1 fuel _ (by rw [e0]; omega)]
  dsimp only
  rw [spin_while_done 0 fuel _ (by
    rw [data_get_after_read, data_get_POLL, e0]
    have : data_get s (0 + 1) = 1 := h1
    omega)]
  exact ⟨_, rfl⟩

theorem data_get_at (t s : State) (n k : Nat) (h1 : t.str = s.str)
    (h2 : t.str_pos = s.str_pos + n) : data_get t k = data_get s (n + k) := by
  simp [data_get, h1, h2, Nat.add_assoc]

/-- The handshake read when the handshake occurs at the first poll and the
first three samples agree. -/
theorem handshaked_read_immediate (s : State) (toggle : Int)
    (hd : data_get s 0 ≠ busy_level toggle) (hs : stable3 (sample s) 0) :
    cbm_handshaked_read s toggle =
      (sample s 0,
        { reads 3 (polls 1 (RELEASE DATA_IN s)) with oldvalue := sample s 0 }) :=
  handshaked_read_stable s toggle 0 0 (Nat.zero_le _)
    (fun _ hk => absurd hk (Nat.not_lt_zero _)) hd (by decide)
    (fun _ hk => absurd hk (Nat.not_lt_zero _)) hs

/-- Against a partner that toggles DATA at every poll and shows a steady 0x41,
the `i`-th handshake read of a track read finds its level at once and returns
0x41. -/
theorem toggling_reads (s : State) (hstr : s.str = fun n => if n % 2 = 0 then 0x40 else 0)
    (hdtr : s.dtr_in = fun _ => 0x41) (hpos : s.str_pos = 0) (i : Nat) :
    ((hs_read_state s i).str_pos = i ∧ (hs_read_state s i).str = s.str ∧
      (hs_read_state s i).dtr_in = s.dtr_in) ∧ hs_read_byte s i = 0x41 := by
  have step : ∀ t : State, ∀ n : Nat, t.str_pos = n → t.str = s.str → t.dtr_in = s.dtr_in →
      cbm_handshaked_read t ((n % 2 : Nat) : Int) =
        (0x41, { reads 3 (polls 1 (RELEASE DATA_IN t)) with oldvalue := 0x41 }) := by
    intro t n h1 h2 h3
    have hsm : ∀ k, sample t k = 0x41 := by
      intro k
      simp [sample, h3, hdtr]
    rw [handshaked_read_immediate t _ ?_ ?_, hsm 0]
    · rcases Nat.mod_two_eq_zero_or_one n with h | h <;>
        simp [data_get, busy_level, h1, h2, hstr, h, DATA_IN]
    · simp [stable3, hsm]
  have inv : ∀ n, (hs_read_state s n).str_pos = n ∧ (hs_read_state s n).str = s.str ∧
      (hs_read_state s n).dtr_in = s.dtr_in := by
    intro n
    induction n with
    | zero => rw [hs_read_state_zero]; exact ⟨hpos, rfl, rfl⟩
    | succ n ih =>
      rw [hs_read_state_succ, step _ n ih.1 ih.2.1 ih.2.2]
      dsimp only
      rw [reads_eq, polls_eq]
      exact ⟨by simp [RELEASE, CTRL_WRITE, emit, ih.1], ih.2.1, ih.2.2⟩
  refine ⟨inv i, ?_⟩
  rw [hs_read_byte_eq, step _ i (inv i).1 (inv i).2.1 (inv i).2.2]

/-- C1 at two partners.  Against the toggling partner with a steady 0x41 the
track read returns 1 with 0x41 in the first and in the last cell; against the
partner that never releases DATA it returns 0 and leaves the buffer alone. -/
theorem C1_burst_read_track_witness :
    (∃ s' b', cbm_parallel_burst_read_track 1 st_toggling (fun _ => 0) = some (1, s', b') ∧
      b' 0 = 0x41 ∧ b' 8191 = 0x41 ∧ b' 8192 = 0) ∧
    (∃ s' b', cbm_parallel_burst_read_track 0 st_stalled (fun _ => 7) = some (0, s', b') ∧
      b' 0 = 7) := by
  have ht := toggling_reads (intr_disable st_toggling).2 rfl rfl rfl
  constructor
  · have hat : ∀ k, data_get (hs_read_state (intr_disable st_toggling).2 8192) k =
        data_get (intr_disable st_toggling).2 (8192 + k) := fun k =>
      data_get_at _ _ 8192 k (ht 8192).1.2.1 (by rw [(ht 8192).1.1]; rfl)
    obtain ⟨r, hr⟩ := burst_read_returns 0 (hs_read_state (intr_disable st_toggling).2 8192)
      (by rw [hat]; decide) (by rw [hat]; decide)
    obtain ⟨b', h1, h2, h3⟩ := (C1_burst_read_track st_toggling (fun _ => 0) 1).1 r
      (fun i _ => by rw [(ht i).2]; decide) hr
    refine ⟨_, b', h1, ?_, ?_, h3 8192 (Nat.le_refl _)⟩
    · have := h2 0 (by decide)
      rw [(ht 0).2] at this
      exact_mod_cast this
    · have := h2 8191 (by decide)
      rw [(ht 8191).2] at this
      exact_mod_cast this
  · obtain ⟨b', h1, _, h3⟩ := (C1_burst_read_track st_stalled (fun _ => 7) 0).2 0 (by decide)
      (fun _ hi => absurd hi (Nat.not_lt_zero _))
      (by
        rw [hs_read_byte_zero, handshaked_read_timeout _ _
          (fun _ _ => by simp [data_get, intr_disable, emit, st_stalled, idle_state, DATA_IN,
            busy_level])])
    exact ⟨_, b', h1, h3 0 (Nat.le_refl _)⟩

/-! ## The track read with sentinel -/

theorem stored_eq_filled (s : State) (b : Buffer) (j : Nat) :
    b.store j (hs_read_byte s j) = filled s b j (j + 1) := by
  rw [← filled_stored s b j (j + 1) (Nat.lt_succ_self j), filled_empty]

/-- The loop of the variable-length track read when read `j` is the first to
return 0x55 and no read before it times out. -/
theorem read_track_var_loop_sentinel (sv : Bool) (s : State) (j : Nat) (hj : j < 0x2000)
    (hok : ∀ i, i < j → hs_read_byte s i ≠ -1 ∧ hs_read_byte s i ≠ 0x55)
    (h55 : hs_read_byte s j = 0x55) (d : Nat) :
    ∀ (i : Nat) (b : Buffer), i + d = j →
      read_track_var_loop sv i (hs_read_state s i) b =
        (LoopExit.fell_through, hs_read_state s (j + 1), filled s b i (j + 1)) := by
  induction d with
  | zero =>
    intro i b hi
    have hik : i = j := by omega
    subst hik
    rw [read_track_var_loop, dif_pos hj]
    dsimp only
    rw [Nat.and_one_is_mod, ← hs_read_state_succ, ← hs_read_byte_eq, h55]
    rw [if_neg (by decide), if_pos rfl, ← h55, stored_eq_filled]
  | succ d ih =>
    intro i b hi
    have hik : i < j := by omega
    rw [read_track_var_loop, dif_pos (by omega)]
    dsimp only
    rw [Nat.and_one_is_mod, ← hs_read_state_succ, ← hs_read_byte_eq]
    rw [if_neg (hok i hik).1, if_neg (hok i hik).2, ih (i + 1) _ (by omega),
      filled_stored s b i (j + 1) (by omega)]

/-- The loop of the variable-length track read when no read times out and
none returns 0x55. -/
theorem read_track_var_loop_complete (sv : Bool) (s : State)
    (hok : ∀ i, i < 0x2000 → hs_read_byte s i ≠ -1 ∧ hs_read_byte s i ≠ 0x55) (d : Nat) :
    ∀ (i : Nat) (b : Buffer), i + d = 0x2000 →
      read_track_var_loop sv i (hs_read_state s i) b =
        (LoopExit.fell_through, hs_read_state s 0x2000, filled s b i 0x2000) := by
  induction d with
  | zero =>
    intro i b hi
    have hik : i = 0x2000 := by omega
    subst hik
    rw [read_track_var_loop, dif_neg (Nat.lt_irrefl _), filled_empty]
  | succ d ih =>
    intro i b hi
    have hik : i < 0x2000 := by omega
    rw [read_track_var_loop, dif_pos hik]
    dsimp only
    rw [Nat.and_one_is_mod, ← hs_read_state_succ, ← hs_read_byte_eq]
    rw [if_neg (hok i hik).1, if_neg (hok i hik).2, ih (i + 1) _ (by omega),
      filled_stored s b i 0x2000 hik]

theorem filled_last (s : State) (b : Buffer) (j : Nat) (h55 : hs_read_byte s j = 0x55) :
    filled s b 0 (j + 1) j = 0x55 := by
  unfold filled
  rw [if_pos ⟨Nat.zero_le _, Nat.lt_succ_self j⟩, h55]
  rfl

/-- C4, as the code has it: with `s1` the state right after `intr_disable`, if
read `j < 8192` is the first to return 0x55, no read before it times out, and
the closing burst read returns `r`, then the call returns 1, its final state is
that of the closing read made after read `j` with the interrupt state restored
(exactly `j + 1` handshake reads, then one burst read), `buffer[0..j]` holds the
bytes read with `buffer[j] = 0x55`, and the cells after `j` are unchanged.  If
no read returns 0x55 and none times out, the call yields what
`cbm_parallel_burst_read_track` yields, for every fuel. -/
theorem C4_burst_read_track_var (s : State) (buffer : Buffer) (fuel : Nat) :
    (∀ j r, j < 8192 →
      (∀ i, i < j → hs_read_byte (intr_disable s).2 i ≠ -1 ∧
        hs_read_byte (intr_disable s).2 i ≠ 0x55) →
      hs_read_byte (intr_disable s).2 j = 0x55 →
      cbm_parallel_burst_read fuel (hs_read_state (intr_disable s).2 (j + 1)) = some r →
      ∃ buffer', cbm_parallel_burst_read_track_var fuel s buffer =
          some (1, intr_restore s.intr r.2, buffer') ∧
        (∀ i, i ≤ j → ((buffer' i : Nat) : Int) = hs_read_byte (intr_disable s).2 i) ∧
        buffer' j = 0x55 ∧
        (∀ i, j < i → buffer' i = buffer i)) ∧
    ((∀ i, i < 8192 → hs_read_byte (intr_disable s).2 i ≠ -1 ∧
        hs_read_byte (intr_disable s).2 i ≠ 0x55) →
      cbm_parallel_burst_read_track_var fuel s buffer =
        cbm_parallel_burst_read_track fuel s buffer) := by
  constructor
  · intro j r hj hok h55 hr
    have hl := read_track_var_loop_sentinel (intr_disable s).1 (intr_disable s).2 j hj hok h55
      j 0 buffer (Nat.zero_add j)
    rw [hs_read_state_zero] at hl
    refine ⟨filled (intr_disable s).2 buffer 0 (j + 1), ?_, ?_, ?_, ?_⟩
    · unfold cbm_parallel_burst_read_track_var
      dsimp only
      rw [hl]
      dsimp only
      rw [hr]
      rfl
    · intro i hi
      apply filled_inside _ _ _ _ _ (Nat.zero_le _) (by omega)
      by_cases hij : i = j
      · subst hij; rw [h55]; decide
      · exact (hok i (by omega)).1
    · exact filled_last _ _ _ h55
    · intro i hi
      exact filled_outside _ _ _ _ _ (Or.inr (by omega))
  · intro hok
    have hv := read_track_var_loop_complete (intr_disable s).1 (intr_disable s).2 hok 0x2000 0
      buffer rfl
    have hp := read_track_loop_complete (intr_disable s).1 (intr_disable s).2
      (fun i hi => (hok i hi).1) 0x2000 0 buffer rfl
    rw [hs_read_state_zero] at hv hp
    unfold cbm_parallel_burst_read_track_var cbm_parallel_burst_read_track
    dsimp only
    rw [hv, hp]

theorem handshaked_read_immediate_fields (s : State) (toggle : Int)
    (hd : data_get s 0 ≠ busy_level toggle) (hs : stable3 (sample s) 0) :
    (cbm_handshaked_read s toggle).1 = sample s 0 ∧
    (cbm_handshaked_read s toggle).2.str = s.str ∧
    (cbm_handshaked_read s toggle).2.str_pos = s.str_pos + 1 ∧
    (cbm_handshaked_read s toggle).2.dtr_in = s.dtr_in := by
  rw [handshaked_read_immediate s toggle hd hs, reads_eq, polls_eq]
  exact ⟨rfl, rfl, rfl, rfl⟩

theorem spin_while_stuck (busy fuel : Nat) :
    ∀ s : State, (∀ k, data_get s k = busy) → spin_while busy fuel s = none := by
  induction fuel with
  | zero => intro s _; rfl
  | succ fuel ih =>
    intro s h
    rw [spin_while, GET_DATA_IN_eq]
    dsimp only
    rw [if_pos (h 0)]
    exact ih _ (fun k => by rw [data_get_POLL]; exact h (k + 1))

/-- The burst read never returns while the partner holds DATA asserted. -/
theorem burst_read_hangs (fuel : Nat) (s : State) (h : ∀ k, data_get s k = 1) :
    cbm_parallel_burst_read fuel s = none := by
  unfold cbm_parallel_burst_read
  dsimp only
  rw [spin_while_stuck 1 fuel (DELAY 20 (SET ATN_OUT (RELEASE (DATA_OUT ||| CLK_OUT) s)))
    (fun k => (data_get_congr (s := s) rfl rfl k).trans (h k))]

/-- Facts on the first read of a track read against the two sentinel partners,
whose first status reading shows DATA released and whose data lines read 0x55. -/
theorem sentinel_first_read (s : State) (h0 : data_get s 0 = 0)
    (hd : s.dtr_in = fun _ => 0x55) :
    hs_read_byte s 0 = 0x55 ∧ (hs_read_state s (0 + 1)).str = s.str ∧
      (hs_read_state s (0 + 1)).str_pos = s.str_pos + 1 := by
  have hsm : ∀ k, sample s k = 0x55 := fun k => by simp [sample, hd]
  have hf := handshaked_read_immediate_fields s ((0 % 2 : Nat) : Int)
    (by rw [h0]; decide) (by simp [stable3, hsm])
  rw [hs_read_byte_eq, hs_read_state_succ, hs_read_state_zero]
  exact ⟨by rw [hf.1, hsm], hf.2.1, hf.2.2.1⟩

/-- C4 at a partner that sends 0x55 at once and completes the closing
rendezvous: the call returns 1 after one read, with 0x55 in cell 0 and cell 1
untouched. -/
theorem C4_burst_read_track_var_witness :
    ∃ s' b', cbm_parallel_burst_read_track_var 1 st_sentinel (fun _ => 7) = some (1, s', b') ∧
      b' 0 = 0x55 ∧ b' 1 = 7 := by
  have hf := sentinel_first_read (intr_disable st_sentinel).2 (by decide) rfl
  have hat : ∀ k, data_get (hs_read_state (intr_disable st_sentinel).2 (0 + 1)) k =
      data_get (intr_disable st_sentinel).2 (1 + k) := fun k =>
    data_get_at _ _ 1 k hf.2.1 hf.2.2
  obtain ⟨r, hr⟩ := burst_read_returns 0 (hs_read_state (intr_disable st_sentinel).2 (0 + 1))
    (by rw [hat]; decide) (by rw [hat]; decide)
  obtain ⟨b', h1, _, h2, h3⟩ := (C4_burst_read_track_var st_sentinel (fun _ => 7) (0 + 1)).1 0 r
    (by decide) (fun _ hi => absurd hi (Nat.not_lt_zero _)) hf.1 hr
  exact ⟨_, b', h1, h2, h3 1 (by decide)⟩

/-- C4 as stated fails: against a partner that sends 0x55 at the first read
(no read times out before it) and then holds DATA asserted for ever, the
closing burst read never returns, so the call returns nothing, whatever the
fuel. -/
theorem C4_closing_read_hangs_counterexample :
    hs_read_byte (intr_disable st_hang).2 0 = 0x55 ∧
    ¬ ∃ fuel r, cbm_parallel_burst_read_track_var fuel st_hang (fun _ => 0) = some r := by
  have hf := sentinel_first_read (intr_disable st_hang).2 (by decide) rfl
  refine ⟨hf.1, ?_⟩
  rintro ⟨fuel, r, h⟩
  have hl := read_track_var_loop_sentinel (intr_disable st_hang).1 (intr_disable st_hang).2 0
    (by decide) (fun _ hi => absurd hi (Nat.not_lt_zero _)) hf.1 0 0 (fun _ => 0) rfl
  rw [hs_read_state_zero] at hl
  have hb : cbm_parallel_burst_read fuel (hs_read_state (intr_disable st_hang).2 (0 + 1)) =
      none := by
    apply burst_read_hangs
    intro k
    rw [data_get_at _ _ 1 k hf.2.1 hf.2.2]
    simp [data_get, intr_disable, emit, st_hang, idle_state, DATA_IN]
  unfold cbm_parallel_burst_read_track_var at h
  dsimp only at h
  rw [hl] at h
  dsimp only at h
  rw [hb] at h
  exact absurd h (by simp)

/-! ## Interrupt masking -/

theorem frame_handshake_wait (bound busy : Nat) (s : State) :
    Frame s (handshake_wait bound busy 0 s).2 := by
  rcases handshake_wait_cases bound busy s with ⟨_, h⟩ | ⟨j, _, _, _, h⟩
  · rw [h]; exact frame_polls _ s
  · rw [h]; exact frame_polls _ s

theorem frame_handshaked_read (s : State) (toggle : Int) :
    Frame s (cbm_handshaked_read s toggle).2 := by
  rcases handshaked_read_cases s toggle with ⟨_, h⟩ | ⟨j, _, _, _, ⟨i, _, _, _, h⟩ | ⟨_, h⟩⟩
  · rw [h]
    exact (frame_RELEASE _ s).trans (frame_polls _ _)
  · rw [h]
    exact ((frame_RELEASE _ s).trans (frame_polls _ _)).trans
      ((frame_reads _ _).trans (frame_oldvalue _ _))
  · rw [h]
    exact ((frame_RELEASE _ s).trans (frame_polls _ _)).trans
      (((frame_reads _ _).trans (frame_device_printf _ _)).trans (frame_oldvalue _ _))

theorem frame_handshaked_write (s : State) (data : Nat) (toggle : Int) :
    Frame s (cbm_handshaked_write s data toggle).2 := by
  have hw := (frame_RELEASE CLK_IN s).trans
    (frame_handshake_wait TO_HANDSHAKED_WRITE (if toggle = 0 then 1 else 0) (RELEASE CLK_IN s))
  unfold cbm_handshaked_write
  dsimp only
  by_cases h : (handshake_wait TO_HANDSHAKED_WRITE (if toggle = 0 then 1 else 0) 0
      (RELEASE CLK_IN s)).1 = true
  · rw [if_pos h]
    exact hw
  · rw [if_neg h]
    by_cases hr : (handshake_wait TO_HANDSHAKED_WRITE (if toggle = 0 then 1 else 0) 0
        (RELEASE CLK_IN s)).2.sc_data_reverse ≠ 0
    · rw [if_pos hr]
      exact hw.trans ((frame_set_data_forward _).trans (frame_XP_WRITE _ _))
    · rw [if_neg hr]
      exact hw.trans (frame_XP_WRITE _ _)

theorem frame_spin_while (busy fuel : Nat) :
    ∀ s t : State, spin_while busy fuel s = some t → Frame s t := by
  induction fuel with
  | zero => intro s t h; exact absurd h (by simp [spin_while])
  | succ fuel ih =>
    intro s t h
    rw [spin_while] at h
    by_cases hg : (GET DATA_IN s).1 = busy
    · rw [if_pos hg] at h
      exact (frame_GET _ s).trans (ih _ _ h)
    · rw [if_neg hg] at h
      cases h
      exact frame_GET _ s

theorem frame_burst_read (fuel : Nat) (s : State) (r : Nat × State)
    (h : cbm_parallel_burst_read fuel s = some r) : Frame s r.2 := by
  have h0 : Frame s (DELAY 20 (SET ATN_OUT (RELEASE (DATA_OUT ||| CLK_OUT) s))) :=
    ((frame_RELEASE _ s).trans (frame_SET _ _)).trans (frame_DELAY _ _)
  unfold cbm_parallel_burst_read at h
  dsimp only at h
  cases h1 : spin_while 1 fuel (DELAY 20 (SET ATN_OUT (RELEASE (DATA_OUT ||| CLK_OUT) s))) with
  | none => rw [h1] at h; exact absurd h (by simp)
  | some t =>
    rw [h1] at h
    dsimp only at h
    have ht : Frame t (if t.sc_data_reverse = 0 then set_data_reverse (XP_WRITE 0xff t) else t) := by
      by_cases hr : t.sc_data_reverse = 0
      · rw [if_pos hr]; exact (frame_XP_WRITE _ t).trans (frame_set_data_reverse _)
      · rw [if_neg hr]; exact Frame.refl t
    cases h2 : spin_while 0 fuel (DELAY 10 (RELEASE ATN_OUT (DELAY 5 (XP_READ
        (if t.sc_data_reverse = 0 then set_data_reverse (XP_WRITE 0xff t) else t)).2))) with
    | none => rw [h2] at h; exact absurd h (by simp)
    | some u =>
      rw [h2] at h
      cases h
      exact (h0.trans (frame_spin_while 1 fuel _ t h1)).trans
        ((ht.trans ((((frame_XP_READ _).trans (frame_DELAY _ _)).trans
          (frame_RELEASE _ _)).trans (frame_DELAY _ _))).trans (frame_spin_while 0 fuel _ u h2))

theorem masked_of_frame (s x : State) (h : Frame (intr_disable s).2 x) :
    Masked s (intr_restore s.intr x) := by
  obtain ⟨evs, he, hp⟩ := h.trace
  have hi : x.intr = false := h.intr
  refine ⟨rfl, evs, ?_, hp⟩
  simp [intr_restore, emit, he, hi, intr_disable]

/-- Whichever way a track read loop is left, its body so far is a frame; on
the early return the saved interrupt state has just been restored. -/
theorem frame_read_track_loop (sv : Bool) (d : Nat) :
    ∀ (i : Nat) (s : State) (b : Buffer), 0x2000 - i = d →
      ((read_track_loop sv i s b).1 = LoopExit.returned →
        ∃ x, Frame s x ∧ (read_track_loop sv i s b).2.1 = intr_restore sv x) ∧
      ((read_track_loop sv i s b).1 = LoopExit.fell_through →
        Frame s (read_track_loop sv i s b).2.1) := by
  induction d with
  | zero =>
    intro i s b hd
    rw [read_track_loop, dif_neg (by omega)]
    exact ⟨fun h => (by cases h), fun _ => Frame.refl s⟩
  | succ d ih =>
    intro i s b hd
    rw [read_track_loop, dif_pos (by omega)]
    dsimp only
    have hf := frame_handshaked_read s (((i &&& 1 : Nat)) : Int)
    by_cases hr : (cbm_handshaked_read s (((i &&& 1 : Nat)) : Int)).1 = -1
    · rw [if_pos hr]
      exact ⟨fun _ => ⟨_, hf, rfl⟩, fun h => by cases h⟩
    · rw [if_neg hr]
      have h2 := ih (i + 1) (cbm_handshaked_read s (((i &&& 1 : Nat)) : Int)).2
        (b.store i (cbm_handshaked_read s (((i &&& 1 : Nat)) : Int)).1) (by omega)
      refine ⟨fun h => ?_, fun h => hf.trans (h2.2 h)⟩
      obtain ⟨x, hx, he⟩ := h2.1 h
      exact ⟨x, hf.trans hx, he⟩

theorem frame_read_track_var_loop (sv : Bool) (d : Nat) :
    ∀ (i : Nat) (s : State) (b : Buffer), 0x2000 - i = d →
      ((read_track_var_loop sv i s b).1 = LoopExit.returned →
        ∃ x, Frame s x ∧ (read_track_var_loop sv i s b).2.1 = intr_restore sv x) ∧
      ((read_track_var_loop sv i s b).1 = LoopExit.fell_through →
        Frame s (read_track_var_loop sv i s b).2.1) := by
  induction d with
  | zero =>
    intro i s b hd
    rw [read_track_var_loop, dif_neg (by omega)]
    exact ⟨fun h => (by cases h), fun _ => Frame.refl s⟩
  | succ d ih =>
    intro i s b hd
    rw [read_track_var_loop, dif_pos (by omega)]
    dsimp only
    have hf := frame_handshaked_read s (((i &&& 1 : Nat)) : Int)
    by_cases hr : (cbm_handshaked_read s (((i &&& 1 : Nat)) : Int)).1 = -1
    · rw [if_pos hr]
      exact ⟨fun _ => ⟨_, hf, rfl⟩, fun h => by cases h⟩
    · rw [if_neg hr]
      by_cases h5 : (cbm_handshaked_read s (((i &&& 1 : Nat)) : Int)).1 = 0x55
      · rw [if_pos h5]
        exact ⟨fun h => (by cases h), fun _ => hf⟩
      · rw [if_neg h5]
        have h2 := ih (i + 1) (cbm_handshaked_read s (((i &&& 1 : Nat)) : Int)).2
          (b.store i (cbm_handshaked_read s (((i &&& 1 : Nat)) : Int)).1) (by omega)
        refine ⟨fun h => ?_, fun h => hf.trans (h2.2 h)⟩
        obtain ⟨x, hx, he⟩ := h2.1 h
        exact ⟨x, hf.trans hx, he⟩

/-- The loop of the track write: since the handshake write returns 1 in every
case, the first iteration leaves by the `return 0`. -/
theorem write_track_loop_eq (sv : Bool) (buffer : Buffer) (length : Int) (i : Nat) (s : State) :
    write_track_loop sv buffer length i s =
      if (i : Int) < length then
        (LoopExit.returned,
          intr_restore sv (cbm_handshaked_write s (buffer i) (((i &&& 1 : Nat)) : Int)).2, i)
      else (LoopExit.fell_through, s, i) := by
  rw [write_track_loop]
  by_cases h : (i : Int) < length
  · rw [dif_pos h, if_pos h]
    dsimp only
    rw [if_pos (by rw [handshaked_write_result]; decide)]
  · rw [dif_neg h, if_neg h]

/-- The track write with a positive length: the first handshake write is made
and the call returns 0. -/
theorem write_track_positive (fuel : Nat) (s : State) (buffer : Buffer) (length : Int)
    (h : 0 < length) :
    cbm_parallel_burst_write_track fuel s buffer length =
      some (0, intr_restore s.intr
        (cbm_handshaked_write (intr_disable s).2 (buffer 0) (((0 &&& 1 : Nat)) : Int)).2) := by
  unfold cbm_parallel_burst_write_track
  dsimp only
  rw [write_track_loop_eq, if_pos (by exact_mod_cast h)]
  rfl

/-- C9: each of the three track operations, whenever it returns, has saved and
disabled the interrupt state as its first action, has made every further action
(register accesses of the nested handshakes and of the closing burst read
included) with interrupts disabled, has restored the saved state exactly once,
as its last action, and leaves the interrupt state as it found it. -/
theorem C9_interrupts_masked (s : State) (buffer : Buffer) (length : Int) (fuel : Nat) :
    (∀ r, cbm_parallel_burst_read_track fuel s buffer = some r → Masked s r.2.1) ∧
    (∀ r, cbm_parallel_burst_read_track_var fuel s buffer = some r → Masked s r.2.1) ∧
    (∀ r, cbm_parallel_burst_write_track fuel s buffer length = some r → Masked s r.2) := by
  refine ⟨?_, ?_, ?_⟩
  · intro r h
    have hl := frame_read_track_loop (intr_disable s).1 0x2000 0 (intr_disable s).2 buffer rfl
    unfold cbm_parallel_burst_read_track at h
    dsimp only at h
    cases he : (read_track_loop (intr_disable s).1 0 (intr_disable s).2 buffer).1 with
    | returned =>
      rw [he] at h
      dsimp only at h
      cases h
      obtain ⟨x, hx, hxe⟩ := hl.1 he
      dsimp only
      rw [hxe]
      exact masked_of_frame s x hx
    | fell_through =>
      rw [he] at h
      dsimp only at h
      cases hb : cbm_parallel_burst_read fuel
          (read_track_loop (intr_disable s).1 0 (intr_disable s).2 buffer).2.1 with
      | none => rw [hb] at h; exact absurd h (by simp)
      | some q =>
        rw [hb] at h
        cases h
        exact masked_of_frame s q.2 ((hl.2 he).trans (frame_burst_read _ _ _ hb))
  · intro r h
    have hl := frame_read_track_var_loop (intr_disable s).1 0x2000 0 (intr_disable s).2 buffer rfl
    unfold cbm_parallel_burst_read_track_var at h
    dsimp only at h
    cases he : (read_track_var_loop (intr_disable s).1 0 (intr_disable s).2 buffer).1 with
    | returned =>
      rw [he] at h
      dsimp only at h
      cases h
      obtain ⟨x, hx, hxe⟩ := hl.1 he
      dsimp only
      rw [hxe]
      exact masked_of_frame s x hx
    | fell_through =>
      rw [he] at h
      dsimp only at h
      cases hb : cbm_parallel_burst_read fuel
          (read_track_var_loop (intr_disable s).1 0 (intr_disable s).2 buffer).2.1 with
      | none => rw [hb] at h; exact absurd h (by simp)
      | some q =>
        rw [hb] at h
        cases h
        exact masked_of_frame s q.2 ((hl.2 he).trans (frame_burst_read _ _ _ hb))
  · intro r h
    unfold cbm_parallel_burst_write_track at h
    dsimp only at h
    rw [write_track_loop_eq] at h
    by_cases hlen : ((0 : Nat) : Int) < length
    · rw [if_pos hlen] at h
      dsimp only at h
      cases h
      exact masked_of_frame s _ (frame_handshaked_write _ _ _)
    · rw [if_neg hlen] at h
      dsimp only at h
      cases hb : cbm_parallel_burst_read fuel
          (cbm_handshaked_write (intr_disable s).2 0 (((0 &&& 1 : Nat)) : Int)).2 with
      | none => rw [hb] at h; exact absurd h (by simp)
      | some q =>
        rw [hb] at h
        cases h
        exact masked_of_frame s q.2
          ((frame_handshaked_write _ _ _).trans (frame_burst_read _ _ _ hb))

/-- The track read when its first handshake read times out. -/
theorem read_track_first_timeout (fuel : Nat) (s : State) (b : Buffer)
    (hto : hs_read_byte (intr_disable s).2 0 = -1) :
    ∃ r, cbm_parallel_burst_read_track fuel s b = some r := by
  have hl := read_track_loop_timeout (intr_disable s).1 (intr_disable s).2 0
    (by decide) (fun _ hi => absurd hi (Nat.not_lt_zero _)) hto 0 0 b rfl
  rw [hs_read_state_zero] at hl
  unfold cbm_parallel_burst_read_track
  dsimp only
  rw [hl]
  exact ⟨_, rfl⟩

theorem read_track_stalled (b : Buffer) :
    ∃ r, cbm_parallel_burst_read_track 0 st_stalled b = some r :=
  read_track_first_timeout 0 st_stalled b (by
    rw [hs_read_byte_zero, handshaked_read_timeout _ _
      (fun _ _ => by simp [data_get, intr_disable, emit, st_stalled, idle_state, DATA_IN,
        busy_level])])

/-- C9 at two calls that return: a track write of one byte to the steady
partner, and a track read from the partner that never releases DATA. -/
theorem C9_interrupts_masked_witness :
    (∃ r, cbm_parallel_burst_write_track 0 st_steady (fun _ => 0x41) 1 = some r ∧
      Masked st_steady r.2) ∧
    (∃ r, cbm_parallel_burst_read_track 0 st_stalled (fun _ => 0) = some r ∧
      Masked st_stalled r.2.1) := by
  constructor
  · exact ⟨_, write_track_positive 0 st_steady (fun _ => 0x41) 1 (by decide),
      (C9_interrupts_masked st_steady (fun _ => 0x41) 1 0).2.2 _
        (write_track_positive 0 st_steady (fun _ => 0x41) 1 (by decide))⟩
  · obtain ⟨r, hr⟩ := read_track_stalled (fun _ => 0)
    exact ⟨r, hr, (C9_interrupts_masked st_stalled (fun _ => 0) 0 0).1 r hr⟩

/-! ## The track write and the direction flag on concrete runs -/

/-- C2, the code at a cooperating partner: the partner presents the level the
first handshake write waits for at the first poll, so nothing times out; yet
the track write of the one-byte buffer `[0x41]` returns 0, having written 0x41
and nothing else to the data register (no terminating zero byte). -/
theorem C2_write_track_reports_timeout :
    data_get (intr_disable st_toggling).2 0 ≠ busy_level (((0 &&& 1 : Nat)) : Int) ∧
    ∃ s', cbm_parallel_burst_write_track 1 st_toggling (fun _ => 0x41) 1 = some (0, s') ∧
      data_writes s' = [0x41] := by
  have hd : data_get (intr_disable st_toggling).2 0 ≠ busy_level (((0 &&& 1 : Nat)) : Int) := by
    decide
  refine ⟨hd, _, write_track_positive 1 st_toggling (fun _ => 0x41) 1 (by decide), ?_⟩
  rw [data_writes_intr_restore, handshaked_write_done (intr_disable st_toggling).2 0x41 _ 0
    (Nat.zero_le _) (fun _ hk => absurd hk (Nat.not_lt_zero _)) hd]
  dsimp only
  rw [data_writes_XP_WRITE, if_neg, data_writes_polls, data_writes_RELEASE,
    data_writes_intr_disable]
  · rfl
  · rw [polls_eq]
    decide

/-- C10, the code from the end of attach: the bus part of `cbm_attach` leaves
the direction flag at 0 and bit 0x20 of the control register clear; one burst
read later the flag is 1 while bit 0x20 is clear again, the closing
`RELEASE(ATN_OUT)` having rewritten the whole control register from the
output latch.  A second burst read then finds the flag at 1, does not switch
the direction, and reads the data register while the control register holds
0xc5 (197), bit 0x20 clear: its actions are listed in full. -/
theorem C10_direction_flag_diverges :
    ((cbm_attach_bus st_power_on).sc_data_reverse = 0 ∧
      (cbm_attach_bus st_power_on).ctr &&& 0x20 = 0) ∧
    (cbm_parallel_burst_read 1 (cbm_attach_bus st_power_on)).map
      (fun r => (r.2.sc_data_reverse, r.2.ctr &&& 0x20)) = some (1, 0) ∧
    ((cbm_parallel_burst_read 1 (cbm_attach_bus st_power_on)).bind
        (fun r => cbm_parallel_burst_read 1 r.2)).map
      (fun q => (q.2.sc_data_reverse, q.2.trace.drop 20)) =
      some (1, [(true, Event.ctrl_write 196), (true, Event.ctrl_write 197),
        (true, Event.delay 20), (true, Event.status_read 64), (true, Event.data_read 65),
        (true, Event.delay 5), (true, Event.ctrl_write 196), (true, Event.delay 10),
        (true, Event.status_read 0)]) := by
  decide

end OpenCBM
